import Mathlib

/-!
Verification of the HotelPro PMS reservation core: a shallow embedding of the
Express route handlers (POST/PATCH/DELETE /api/reservations, DELETE
/api/branches/:id, the `checkBranchPermissions` helper) and of the
`DatabaseStorage` operations they call, together with proofs about the
frozen behavioural claims.

Monetary values travel through the code as decimal strings; JavaScript
parses them with `parseFloat` and renders them with `Number.prototype.toString`
and `toFixed(2)`.  The embedding idealises IEEE doubles as exact rationals
(`ℚ`): `parseFloat` maps a decimal string to the rational it denotes,
`toString` prints the terminating decimal expansion without trailing zeros,
and `toFixed(2)` rounds half-up to two decimals.  All values exercised by the
claims are short decimal fractions, where the idealisation agrees with the
JavaScript semantics.
-/

namespace HotelPMS

/-! ## JavaScript value helpers -/

/-- Truthiness of a JS string: the empty string is falsy. -/
def jsTruthyStr (s : String) : Bool := s ≠ ""

/-- Truthiness of a JS `number | null | undefined`: `null`, `undefined` and
`0` are falsy. -/
def jsTruthyOptNat : Option Nat → Bool
  | none => false
  | some n => n != 0

/-- Numeric value of a list of decimal digit characters. -/
def natOfDigits (cs : List Char) : Nat :=
  cs.foldl (fun n c => n * 10 + (c.toNat - 48)) 0

/-- JS `parseFloat`, idealised over `ℚ`, for strings of the shape
`[-]digits[.digits]` (the only shape the handlers feed it). -/
def parseFloat (s : String) : ℚ :=
  let cs := s.toList
  let neg := cs.head? = some '-'
  let cs1 := if neg then cs.tail else cs
  let ip := cs1.takeWhile Char.isDigit
  let rest := cs1.dropWhile Char.isDigit
  let fp := match rest with
    | '.' :: more => more.takeWhile Char.isDigit
    | _ => []
  let v : ℚ := (natOfDigits ip : ℚ) + (natOfDigits fp : ℚ) / ((10 : ℚ) ^ fp.length)
  if neg then -v else v

/-- JS `parseFloat(x.toFixed(2))`, idealised: round half-up to two decimal
places (the handlers only apply it to non-negative amounts). -/
def round2 (q : ℚ) : ℚ := ((q * 100 + 1/2).floor : ℚ) / 100

/-- Fractional digits of `q ∈ [0,1)`, most significant first, stopping at the
first exact zero remainder (JS prints no trailing zeros); `fuel` bounds the
length as a double prints at most 17 significant digits. -/
def fracDigits : Nat → ℚ → String
  | 0, _ => ""
  | fuel + 1, q =>
    if q = 0 then ""
    else
      let d : Nat := ((q * 10).floor).toNat
      Nat.repr d ++ fracDigits fuel (q * 10 - (d : ℚ))

/-- Decimal rendering of a non-negative rational: integer part, then the
fractional digits when non-zero. -/
def jsNumToStringNonneg (q : ℚ) : String :=
  let ip : Nat := (q.floor).toNat
  let fp : ℚ := q - (ip : ℚ)
  if fp = 0 then Nat.repr ip else Nat.repr ip ++ "." ++ fracDigits 25 fp

/-- JS `Number.prototype.toString`, idealised for terminating decimals:
the shortest decimal expansion, with no trailing zeros and no decimal point
for integers. -/
def jsNumToString (q : ℚ) : String :=
  if q < 0 then "-" ++ jsNumToStringNonneg (-q) else jsNumToStringNonneg q

/-- JS `s.slice(-k)`: the last `k` characters (the whole string when shorter). -/
def jsSliceLast (k : Nat) (s : String) : String := s.drop (s.length - k)

/-- Decides whether `needle` is a prefix of `hay` (character lists). -/
def prefixMatch : List Char → List Char → Bool
  | [], _ => true
  | _ :: _, [] => false
  | a :: as, b :: bs => a == b && prefixMatch as bs

/-- Decides whether `needle` occurs contiguously inside `hay`; the embedding
of SQL `ILIKE '%needle%'` after lower-casing. -/
def substringMatch (needle : List Char) : List Char → Bool
  | [] => needle.isEmpty
  | c :: t => prefixMatch needle (c :: t) || substringMatch needle t

/-- SQL `field ILIKE '%q%'`: case-insensitive substring containment. -/
def ilikeContains (field q : String) : Bool :=
  substringMatch q.toLower.toList field.toLower.toList

/-! ## Data model (tables of `shared/schema`, fields the core touches) -/

/-- A `guests` row. -/
structure Guest where
  id : Nat
  firstName : String
  lastName : String
  email : String
  phone : String
  branchId : Nat
  reservationCount : Nat
  isActive : Bool
  createdAt : Nat
deriving DecidableEq, Repr

/-- A `branches` row. -/
structure Branch where
  id : Nat
  name : String
  isActive : Bool
deriving DecidableEq, Repr

/-- A `rooms` row (fields the reservation core reads or writes). -/
structure Room where
  id : Nat
  branchId : Nat
  status : String
deriving DecidableEq, Repr

/-- One entry of the serialized `appliedTaxes` breakdown built by the POST
handler. -/
structure AppliedTax where
  taxId : Nat
  taxName : String
  rate : ℚ
  amount : ℚ
deriving DecidableEq, Repr

/-- A `reservations` row (fields the core touches; the `appliedTaxes` column
holds the JSON serialization of the breakdown list). -/
structure Reservation where
  id : String
  branchId : Nat
  guestId : Nat
  status : String
  confirmationNumber : String
  totalAmount : String
  taxAmount : String
  appliedTaxes : List AppliedTax
  createdById : String
deriving DecidableEq, Repr

/-- A `reservation_rooms` junction row. -/
structure ReservationRoom where
  id : Nat
  reservationId : String
  roomId : Nat
  checkInDate : String
  checkOutDate : String
  adults : Nat
  children : Nat
  ratePerNight : String
  totalAmount : String
  specialRequests : String
deriving DecidableEq, Repr

/-- A `taxes` row; `rate` is a decimal string as in the schema. -/
structure Tax where
  id : Nat
  taxName : String
  rate : String
  applicationType : String
  isActive : Bool
deriving DecidableEq, Repr

/-- The session user's `users` row as the handlers read it. -/
structure User where
  id : String
  role : String
  branchId : Option Nat
deriving DecidableEq, Repr

/-- The relational store, with the id/timestamp sequences the database
maintains for inserted rows. -/
structure DB where
  branches : List Branch
  guests : List Guest
  rooms : List Room
  reservations : List Reservation
  reservationRooms : List ReservationRoom
  taxes : List Tax
  nextGuestId : Nat
  nextReservationRoomId : Nat
  nextReservationNum : Nat
  nextCreatedAt : Nat
deriving DecidableEq, Repr

/-- Well-formedness the database enforces through serial primary keys:
ids are unique, non-zero, and below the next sequence value. -/
def DB.WF (db : DB) : Prop :=
  0 < db.nextGuestId ∧
  (db.guests.map (fun g => g.id)).Nodup ∧
  (∀ g ∈ db.guests, 0 < g.id ∧ g.id < db.nextGuestId) ∧
  (db.reservationRooms.map (fun rr => rr.id)).Nodup ∧
  (∀ rr ∈ db.reservationRooms, rr.id < db.nextReservationRoomId)

instance (db : DB) : Decidable db.WF := by
  unfold DB.WF; infer_instance

/-! ## Request payloads -/

/-- The `guest` object of the create/update payloads. -/
structure GuestInput where
  firstName : String
  lastName : String
  email : String
  phone : String
deriving DecidableEq, Repr

/-- One entry of the `rooms` array of the create/update payloads; `id` is
present only when the entry refers to an existing reservation-room row. -/
structure RoomInput where
  id : Option Nat := none
  roomId : Nat
  checkInDate : String
  checkOutDate : String
  adults : Nat
  children : Nat
  ratePerNight : String
  totalAmount : String
  specialRequests : Option String := none
deriving DecidableEq, Repr

/-- The `reservation` object of the create payload (fields the handler
reads; the rest is passed through unchanged). -/
structure ReservationInput where
  branchId : Nat
  status : String
deriving DecidableEq, Repr

/-- Body of POST /api/reservations. -/
structure CreateBody where
  guest : GuestInput
  reservation : ReservationInput
  rooms : List RoomInput
deriving DecidableEq, Repr

/-- A partial reservation update (`insertReservationSchema.partial()`),
after the handler's number-to-string coercions. -/
structure ReservationPatch where
  status : Option String := none
  totalAmount : Option String := none
  taxAmount : Option String := none
deriving DecidableEq, Repr

/-- Body of PATCH /api/reservations/:id: the comprehensive keys
`guest`/`reservation`/`rooms`, and the flat legacy fields used when all
three are absent. -/
structure PatchBody where
  guest : Option GuestInput := none
  reservation : Option ReservationPatch := none
  rooms : Option (List RoomInput) := none
  legacy : ReservationPatch := {}
deriving DecidableEq, Repr

/-- Outcome of a handler: an HTTP error (status, message), or success with
the updated store and the response value. -/
inductive HResult (α : Type) where
  | err (status : Nat) (message : String)
  | ok (db : DB) (value : α)
deriving DecidableEq, Repr

/-- The response value of a successful handler run, if any. -/
def HResult.value? : HResult α → Option α
  | .err _ _ => none
  | .ok _ v => some v

/-- The store after a successful handler run, if any. -/
def HResult.dbOut? : HResult α → Option DB
  | .err _ _ => none
  | .ok db _ => some db

/-! ## Storage layer (`server/storage.ts`) -/

/-- `DatabaseStorage.updateRoom(id, { status })`. -/
def DB.updateRoomStatus (db : DB) (roomId : Nat) (status : String) : DB :=
  { db with rooms := db.rooms.map (fun room =>
      if room.id = roomId then { room with status := status } else room) }

/-- The `for`-loops of the handlers that set each listed room to one fixed
status (`roomIdOf` extracts the room id from a loop element). -/
def setRoomsStatus {α : Type} (roomIdOf : α → Nat) (s : String) (db : DB)
    (l : List α) : DB :=
  l.foldl (fun d a => d.updateRoomStatus (roomIdOf a) s) db

/-- The `or(...)` disjunction of `searchGuests`: `ILIKE '%query%'` over
first name, last name, phone and email. -/
def guestMatchesQuery (q : String) (g : Guest) : Bool :=
  ilikeContains g.firstName q || ilikeContains g.lastName q ||
    ilikeContains g.phone q || ilikeContains g.email q

/-- Insert a guest into a list kept in descending `createdAt` order. -/
def insertByCreatedAtDesc (g : Guest) : List Guest → List Guest
  | [] => [g]
  | h :: t =>
    if h.createdAt < g.createdAt then g :: h :: t
    else h :: insertByCreatedAtDesc g t

/-- `orderBy(desc(guests.createdAt))`. -/
def sortByCreatedAtDesc (gs : List Guest) : List Guest :=
  gs.foldr insertByCreatedAtDesc []

/-- `DatabaseStorage.searchGuests(query, branchId?)`: active guests whose
name, phone or email contains the query (case-insensitively), optionally
branch-filtered (a falsy `branchId` applies no filter), most recent first,
capped at 10. -/
def DB.searchGuests (db : DB) (q : String) (branchId : Option Nat) : List Guest :=
  (sortByCreatedAtDesc (db.guests.filter (fun g =>
      g.isActive && guestMatchesQuery q g &&
      (!jsTruthyOptNat branchId || g.branchId == branchId.getD 0)))).take 10

/-- The row `DatabaseStorage.createGuest` inserts.  Modelled from the spec
for the schema defaults (the schema file is not in the sources): a new guest
starts with `reservationCount = 0` and `isActive = true`, and receives the
next serial id and creation timestamp. -/
def mkNewGuest (db : DB) (gi : GuestInput) (branchId : Nat) : Guest :=
  { id := db.nextGuestId, firstName := gi.firstName, lastName := gi.lastName,
    email := gi.email, phone := gi.phone, branchId := branchId,
    reservationCount := 0, isActive := true, createdAt := db.nextCreatedAt }

/-- `DatabaseStorage.createGuest`: append the new row and advance the
sequences. -/
def DB.createGuest (db : DB) (gi : GuestInput) (branchId : Nat) : DB × Guest :=
  let g := mkNewGuest db gi branchId
  ({ db with guests := db.guests ++ [g],
             nextGuestId := db.nextGuestId + 1,
             nextCreatedAt := db.nextCreatedAt + 1 }, g)

/-- The row the PATCH handler assembles as `roomPayload` (the POST bulk
insert carries the same fields via the spread of the payload entry). -/
def mkReservationRoomRow (reservationId : String) (rd : RoomInput) (id : Nat) :
    ReservationRoom :=
  { id := id, reservationId := reservationId, roomId := rd.roomId,
    checkInDate := rd.checkInDate, checkOutDate := rd.checkOutDate,
    adults := rd.adults, children := rd.children,
    ratePerNight := rd.ratePerNight, totalAmount := rd.totalAmount,
    specialRequests := rd.specialRequests.getD "" }

/-- `DatabaseStorage.createReservationRoom`: insert one junction row with the
next serial id. -/
def DB.createReservationRoom (db : DB) (reservationId : String) (rd : RoomInput) :
    DB × ReservationRoom :=
  let row := mkReservationRoomRow reservationId rd db.nextReservationRoomId
  ({ db with reservationRooms := db.reservationRooms ++ [row],
             nextReservationRoomId := db.nextReservationRoomId + 1 }, row)

/-- `deleteReservationRoom(id)`. Modelled from the spec (the storage
implementation is not among the sources; the routes call it to remove one
junction row by id). -/
def DB.deleteReservationRoom (db : DB) (rrId : Nat) : DB :=
  { db with reservationRooms := db.reservationRooms.filter (fun rr => rr.id ≠ rrId) }

/-- `updateReservationRoom(id, roomPayload)`. Modelled from the spec (the
storage implementation is not among the sources; the routes call it to
overwrite the payload fields of the row with that id, in place). -/
def DB.updateReservationRoom (db : DB) (rrId : Nat) (reservationId : String)
    (rd : RoomInput) : DB :=
  { db with reservationRooms := db.reservationRooms.map (fun rr =>
      if rr.id = rrId then mkReservationRoomRow reservationId rd rrId else rr) }

/-- The `sql`-expression increment of `guests.reservationCount` inside
`createReservation`'s transaction. -/
def DB.incrementGuestCount (db : DB) (gid : Nat) : DB :=
  { db with guests := db.guests.map (fun g =>
      if g.id = gid then { g with reservationCount := g.reservationCount + 1 } else g) }

/-- `DatabaseStorage.createReservation(reservation, roomsData)`: insert the
reservation row; when rooms are supplied, also insert all junction rows and
increment the referenced guest's `reservationCount` — all in one
transaction.  With an empty rooms list only the reservation row is written. -/
def DB.createReservationTx (db : DB) (r : Reservation) (roomsData : List RoomInput) :
    DB × Reservation :=
  let db1 := { db with reservations := db.reservations ++ [r] }
  if roomsData.length > 0 then
    let db2 := roomsData.foldl (fun d rd => (d.createReservationRoom r.id rd).1) db1
    let db3 := if r.guestId ≠ 0 then db2.incrementGuestCount r.guestId else db2
    (db3, r)
  else (db1, r)

/-- `DatabaseStorage.updateReservation(id, patch)`: overwrite the provided
scalar fields of the row with that id. -/
def applyReservationPatch (p : ReservationPatch) (r : Reservation) : Reservation :=
  { r with status := p.status.getD r.status,
           totalAmount := p.totalAmount.getD r.totalAmount,
           taxAmount := p.taxAmount.getD r.taxAmount }

/-- `DatabaseStorage.updateReservation`. -/
def DB.updateReservation (db : DB) (rid : String) (p : ReservationPatch) : DB :=
  { db with reservations := db.reservations.map (fun r =>
      if r.id = rid then applyReservationPatch p r else r) }

/-- `DatabaseStorage.getReservation(id)` (the row part; the joined
`reservationRooms` are `getReservationRooms`). -/
def DB.findReservation (db : DB) (rid : String) : Option Reservation :=
  db.reservations.find? (fun r => r.id == rid)

/-- The `reservationRooms` join of `getReservation`. -/
def DB.getReservationRooms (db : DB) (rid : String) : List ReservationRoom :=
  db.reservationRooms.filter (fun rr => rr.reservationId == rid)

/-- `DatabaseStorage.updateGuest(id, data)` as the PATCH handler uses it:
overwrite the payload's guest fields of the row with that id (the payload's
`id` key is deleted first). -/
def DB.updateGuest (db : DB) (gid : Nat) (gi : GuestInput) : DB :=
  { db with guests := db.guests.map (fun g =>
      if g.id = gid then
        { g with firstName := gi.firstName, lastName := gi.lastName,
                 email := gi.email, phone := gi.phone }
      else g) }

/-- `DatabaseStorage.getBranch(id)`. -/
def DB.findBranch (db : DB) (bid : Nat) : Option Branch :=
  db.branches.find? (fun b => b.id == bid)

/-- `updateBranch(id, { isActive })`. -/
def DB.setBranchActive (db : DB) (bid : Nat) (a : Bool) : DB :=
  { db with branches := db.branches.map (fun b =>
      if b.id = bid then { b with isActive := a } else b) }

/-- `DatabaseStorage.deleteBranch(id)`: hard-delete the branch row. -/
def DB.deleteBranch (db : DB) (bid : Nat) : DB :=
  { db with branches := db.branches.filter (fun b => b.id ≠ bid) }

/-- `restaurantStorage.getActiveReservationTaxes()`. Modelled from the spec
(the restaurant storage implementation is not among the sources): all taxes
with `isActive = true` and `applicationType = "reservation"`. -/
def getActiveReservationTaxes (taxes : List Tax) : List Tax :=
  taxes.filter (fun t => t.isActive && t.applicationType == "reservation")

/-! ## Permission helpers (routes file, lines 56-126) -/

/-- `checkBranchPermissions(userRole, userBranchId, targetBranchId?)`. -/
def checkBranchPermissions (userRole : String) (userBranchId : Option Nat)
    (targetBranchId : Option Nat) : Bool :=
  if userRole == "superadmin" then true
  else if !jsTruthyOptNat targetBranchId then true
  else if userRole == "branch-admin" || userRole == "custom" then
    userBranchId == targetBranchId
  else false

/-- `checkUserPermission(userId, module, action)`, with the external
`roleStorage.getUserPermissions` lookup for custom roles injected as
`customPerms`. -/
def checkUserPermission (customPerms : String → String → Bool) (user : User)
    (module action : String) : Bool :=
  if user.role == "superadmin" then true
  else if user.role == "branch-admin" then
    !(["users", "branches", "settings"].contains module)
  else if user.role == "front-desk" then
    if !(["dashboard", "reservations", "rooms", "guests", "billing"].contains module)
    then false
    else if action == "delete" && !(["reservations"].contains module) then false
    else true
  else if user.role == "custom" then customPerms module action
  else false

/-! ## Tax computation (POST handler, lines 1193-1216) -/

/-- `roomsData.reduce((sum, room) => sum + parseFloat(room.totalAmount), 0)`. -/
def computeSubtotal (roomsData : List RoomInput) : ℚ :=
  roomsData.foldl (fun sum room => sum + parseFloat room.totalAmount) 0

/-- The handler's running tax state: `totalTaxAmount` and `appliedTaxes`. -/
structure TaxAccum where
  totalTaxAmount : ℚ
  appliedTaxes : List AppliedTax
deriving DecidableEq, Repr

/-- One iteration of the `activeTaxes.forEach` loop: accumulate the
unrounded per-tax amount into the total, and push a breakdown entry whose
`amount` is rounded to two decimals (`parseFloat(taxAmount.toFixed(2))`). -/
def applyTaxStep (subtotal : ℚ) (acc : TaxAccum) (tax : Tax) : TaxAccum :=
  let taxAmount := subtotal * parseFloat tax.rate / 100
  { totalTaxAmount := acc.totalTaxAmount + taxAmount,
    appliedTaxes := acc.appliedTaxes ++
      [{ taxId := tax.id, taxName := tax.taxName, rate := parseFloat tax.rate,
         amount := round2 taxAmount }] }

/-- The `activeTaxes.forEach` loop of the POST handler. -/
def applyTaxes (activeTaxes : List Tax) (subtotal : ℚ) : TaxAccum :=
  activeTaxes.foldl (applyTaxStep subtotal) { totalTaxAmount := 0, appliedTaxes := [] }

/-- The spec's reading of the total: the sum of the per-tax ROUNDED amounts
`round(subtotal * rate / 100, 2)`.  Stated for comparison with `applyTaxes`,
which rounds only the breakdown entries. -/
def specTotalTax (activeTaxes : List Tax) (subtotal : ℚ) : ℚ :=
  (activeTaxes.map (fun t => round2 (subtotal * parseFloat t.rate / 100))).sum

/-! ## POST /api/reservations (routes file, lines 1119-1288) -/

/-- The effective reservation payload after the custom-role branch override. -/
def effectiveResData (user : User) (body : CreateBody) : ReservationInput :=
  if user.role == "custom" then
    { body.reservation with branchId := user.branchId.getD 0 }
  else body.reservation

/-- Guest resolution (lines 1176-1191): when the payload phone is truthy,
search by phone and take the first hit; otherwise (or when the search is
empty) create a new guest scoped to the reservation's branch. -/
def resolveGuest (db : DB) (gi : GuestInput) (branchId : Nat) : DB × Guest :=
  if jsTruthyStr gi.phone then
    match db.searchGuests gi.phone none with
    | g :: _ => (db, g)
    | [] => db.createGuest gi branchId
  else db.createGuest gi branchId

/-- Steps 3-6 of the create path: totals, confirmation number, transactional
insert, then the room-status loop. -/
def finishCreate (db1 : DB) (user : User) (resData : ReservationInput)
    (guest : Guest) (rooms : List RoomInput) (now : Nat) : DB × Reservation :=
  let subtotal := computeSubtotal rooms
  let acc := applyTaxes (getActiveReservationTaxes db1.taxes) subtotal
  let resRecord : Reservation :=
    { id := "res-" ++ Nat.repr db1.nextReservationNum,
      branchId := resData.branchId,
      guestId := guest.id,
      status := resData.status,
      confirmationNumber := "RES" ++ jsSliceLast 8 (Nat.repr now),
      totalAmount := jsNumToString (subtotal + acc.totalTaxAmount),
      taxAmount := jsNumToString acc.totalTaxAmount,
      appliedTaxes := acc.appliedTaxes,
      createdById := user.id }
  let db2 := { db1 with nextReservationNum := db1.nextReservationNum + 1 }
  let tx := db2.createReservationTx resRecord rooms
  (setRoomsStatus (fun rd => rd.roomId) "reserved" tx.1 rooms, tx.2)

/-- The POST /api/reservations handler (`now` is `Date.now()`). -/
def postReservations (cp : String → String → Bool) (db : DB) (user : User)
    (body : CreateBody) (now : Nat) : HResult Reservation :=
  if !checkUserPermission cp user "reservations" "write" then
    .err 403 "You do not have permission to create reservations"
  else if user.role == "custom" && !jsTruthyOptNat user.branchId then
    .err 403 "Custom role user must have a branch assignment"
  else if !(user.role == "custom") &&
      !checkBranchPermissions user.role user.branchId (some body.reservation.branchId) then
    .err 403 "Insufficient permissions for this branch"
  else
    let resData := effectiveResData user body
    let resolved := resolveGuest db body.guest resData.branchId
    let result := finishCreate resolved.1 user resData resolved.2 body.rooms now
    .ok result.1 result.2

/-! ## PATCH /api/reservations/:id (routes file, lines 1290-1517) -/

/-- The room-status value cascaded on a legacy status change
(the `switch` of lines 1434-1451). -/
def roomStatusFor (status : String) : String :=
  if status == "checked-in" then "occupied"
  else if status == "checked-out" then "available"
  else if status == "cancelled" then "available"
  else if status == "confirmed" || status == "pending" then "reserved"
  else "reserved"

/-- One iteration of the incoming-rooms loop of the comprehensive update:
an entry with a truthy id updates the junction row in place; an entry
without one inserts a new row and sets its room to `reserved`. -/
def reconcileStep (rid : String) (d : DB) (rd : RoomInput) : DB :=
  if jsTruthyOptNat rd.id then d.updateReservationRoom (rd.id.getD 0) rid rd
  else ((d.createReservationRoom rid rd).1).updateRoomStatus rd.roomId "reserved"

/-- The `incomingRoomIds` of the comprehensive update: the (truthy) ids
carried by the payload entries. -/
def incomingRoomIds (rs : List RoomInput) : List Nat :=
  (rs.filter (fun rd => jsTruthyOptNat rd.id)).map (fun rd => rd.id.getD 0)

/-- The `roomsToRemove` of the comprehensive update: existing junction rows
of the reservation absent from the payload. -/
def roomsToRemove (db : DB) (rid : String) (rs : List RoomInput) :
    List ReservationRoom :=
  (db.getReservationRooms rid).filter
    (fun rr => !(incomingRoomIds rs).contains rr.id)

/-- The removal loop: delete each listed junction row and revert its room to
`available`. -/
def removalPhase (db : DB) (toRemove : List ReservationRoom) : DB :=
  toRemove.foldl (fun d rr =>
    (d.deleteReservationRoom rr.id).updateRoomStatus rr.roomId "available") db

/-- The comprehensive room reconciliation (lines 1364-1405): remove the
existing junction rows absent from the payload (reverting their rooms to
`available`), then process every payload entry in order. -/
def reconcileRooms (db : DB) (rid : String) (rs : List RoomInput) : DB :=
  rs.foldl (reconcileStep rid) (removalPhase db (roomsToRemove db rid rs))

/-- The comprehensive branch of the PATCH handler (guest fields, reservation
scalars, then room reconciliation). -/
def comprehensiveUpdate (db : DB) (existing : Reservation) (rid : String)
    (body : PatchBody) : DB :=
  let db1 := match body.guest with
    | some gi => if existing.guestId ≠ 0 then db.updateGuest existing.guestId gi else db
    | none => db
  let db2 := match body.reservation with
    | some p => db1.updateReservation rid p
    | none => db1
  match body.rooms with
  | some rs => reconcileRooms db2 rid rs
  | none => db2

/-- The legacy branch of the PATCH handler: apply the flat patch, then — when
the patch carries a truthy `status` — cascade the mapped room status to every
junction row of the reservation (as fetched before the update). -/
def legacyUpdate (db : DB) (rid : String) (p : ReservationPatch) : DB :=
  let db1 := db.updateReservation rid p
  match p.status with
  | some s =>
    if s ≠ "" then
      setRoomsStatus (fun rr => rr.roomId) (roomStatusFor s) db1
        (db.getReservationRooms rid)
    else db1
  | none => db1

/-- The PATCH /api/reservations/:id handler. -/
def patchReservation (cp : String → String → Bool) (db : DB) (user : User)
    (rid : String) (body : PatchBody) : HResult Unit :=
  if !checkUserPermission cp user "reservations" "write" then
    .err 403 "You do not have permission to update reservations"
  else
    match db.findReservation rid with
    | none => .err 404 "Reservation not found"
    | some existing =>
      if !checkBranchPermissions user.role user.branchId (some existing.branchId) then
        .err 403 "Insufficient permissions for this branch"
      else if existing.status == "checked-out" || existing.status == "cancelled" then
        .err 403 "Cannot edit reservation after checkout or cancellation"
      else if body.guest.isSome || body.reservation.isSome || body.rooms.isSome then
        .ok (comprehensiveUpdate db existing rid body) ()
      else
        .ok (legacyUpdate db rid body.legacy) ()

/-! ## DELETE /api/reservations/:id (routes file, lines 1519-1579) -/

/-- The cancellation performed by the DELETE handler: set the reservation's
status to `cancelled` (the row is kept), then set every associated room to
`available`. -/
def cancelReservationCore (db : DB) (rid : String) : DB :=
  let db1 := db.updateReservation rid { status := some "cancelled" }
  setRoomsStatus (fun rr => rr.roomId) "available" db1 (db.getReservationRooms rid)

/-- The DELETE /api/reservations/:id handler.  Note: unlike PATCH, it has no
terminal-state guard. -/
def deleteReservation (cp : String → String → Bool) (db : DB) (user : User)
    (rid : String) : HResult Unit :=
  if !checkUserPermission cp user "reservations" "delete" then
    .err 403 "You do not have permission to delete reservations"
  else
    match db.findReservation rid with
    | none => .err 404 "Reservation not found"
    | some existing =>
      if !checkBranchPermissions user.role user.branchId (some existing.branchId) then
        .err 403 "Insufficient permissions for this branch"
      else
        .ok (cancelReservationCore db rid) ()

/-! ## DELETE /api/branches/:id (routes file, lines 334-363) -/

/-- The DELETE /api/branches/:id handler: superadmin only; first invocation
on an active branch deactivates it, a second invocation on the now-inactive
branch hard-deletes the row.  The response value is the `action` field. -/
def deleteBranchEndpoint (db : DB) (user : User) (bid : Nat) : HResult String :=
  if !(user.role == "superadmin") then .err 403 "Insufficient permissions"
  else
    match db.findBranch bid with
    | none => .err 404 "Branch not found"
    | some branch =>
      if branch.isActive then .ok (db.setBranchActive bid false) "deactivated"
      else .ok (db.deleteBranch bid) "deleted"

/-- The confirmation-number pattern `RES\d{8}` of the spec's scenario. -/
def matchesResPattern (s : String) : Bool :=
  s.startsWith "RES" && (s.drop 3).length == 8 &&
    (s.drop 3).toList.all (fun c => c.isDigit)

/-! ## Concrete fixtures used by witnesses and counterexamples -/

/-- A custom-role permission table granting everything (the external
`roleStorage` collaborator is irrelevant for built-in roles). -/
def cpTrue : String → String → Bool := fun _ _ => true

/-- A superadmin session user. -/
def adminUser : User := { id := "u1", role := "superadmin", branchId := none }

/-- An empty store with all id sequences at 1. -/
def dbEmpty : DB :=
  { branches := [], guests := [], rooms := [], reservations := [],
    reservationRooms := [], taxes := [], nextGuestId := 1,
    nextReservationRoomId := 1, nextReservationNum := 1, nextCreatedAt := 1 }

/-- A 10% reservation-type tax. -/
def tax10 : Tax :=
  { id := 1, taxName := "VAT", rate := "10", applicationType := "reservation",
    isActive := true }

/-- A room payload entry assigning room 5 for two nights at 100.00/night. -/
def roomEntry200 : RoomInput :=
  { roomId := 5, checkInDate := "2025-01-01", checkOutDate := "2025-01-03",
    adults := 1, children := 0, ratePerNight := "100.00", totalAmount := "200.00" }

/-- The store of the spec's concrete scenario: branch 1, room 5, one active
10% reservation tax. -/
def dbScenario : DB :=
  { dbEmpty with
      branches := [{ id := 1, name := "Main", isActive := true }],
      rooms := [{ id := 5, branchId := 1, status := "available" }],
      taxes := [tax10] }

/-- The create payload of the spec's concrete scenario. -/
def bodyScenario : CreateBody :=
  { guest := { firstName := "Jane", lastName := "Doe", email := "",
               phone := "555-0100" },
    reservation := { branchId := 1, status := "confirmed" },
    rooms := [roomEntry200] }

/-- A 13-digit `Date.now()` value. -/
def nowScenario : Nat := 1736899200000

/-- A create payload whose single room line is 33.33, making the 10% tax a
three-decimal amount (3.333) that exposes the missing rounding of the
accumulated total. -/
def bodyThirds : CreateBody :=
  { bodyScenario with rooms := [{ roomEntry200 with totalAmount := "33.33" }] }

/-- An active guest whose phone is the scenario phone. -/
def guestJane : Guest :=
  { id := 1, firstName := "Jane", lastName := "Doe", email := "",
    phone := "555-0100", branchId := 1, reservationCount := 0,
    isActive := true, createdAt := 1 }

/-- The scenario store holding `guestJane`. -/
def dbWithJane : DB :=
  { dbScenario with guests := [guestJane], nextGuestId := 2, nextCreatedAt := 2 }

/-- The scenario create payload with an empty rooms array. -/
def bodyNoRooms : CreateBody := { bodyScenario with rooms := [] }

/-- A checked-out reservation over room 7. -/
def resCheckedOut : Reservation :=
  { id := "r1", branchId := 1, guestId := 1, status := "checked-out",
    confirmationNumber := "RES00000001", totalAmount := "220",
    taxAmount := "20", appliedTaxes := [], createdById := "u1" }

/-- The junction row of `resCheckedOut`. -/
def rrCheckedOut : ReservationRoom :=
  { id := 1, reservationId := "r1", roomId := 7, checkInDate := "2025-01-01",
    checkOutDate := "2025-01-03", adults := 1, children := 0,
    ratePerNight := "100.00", totalAmount := "200.00", specialRequests := "" }

/-- A store holding the terminal (checked-out) reservation `r1`. -/
def dbCheckedOut : DB :=
  { dbEmpty with
      reservations := [resCheckedOut],
      reservationRooms := [rrCheckedOut],
      rooms := [{ id := 7, branchId := 1, status := "occupied" }],
      nextReservationRoomId := 2 }

/-- A deactivated guest owning the scenario phone number. -/
def guestInactive : Guest :=
  { guestJane with isActive := false }

/-- An active guest whose own (different) phone contains the scenario phone
as a substring, so the `ILIKE '%q%'` search also matches it. -/
def guestOther : Guest :=
  { id := 2, firstName := "Eve", lastName := "Lee", email := "",
    phone := "9555-0100", branchId := 1, reservationCount := 0,
    isActive := true, createdAt := 2 }

/-- The scenario store where the phone's owner is deactivated but another
active guest matches the search. -/
def dbDeactivated : DB :=
  { dbScenario with
      guests := [guestInactive, guestOther],
      nextGuestId := 3, nextCreatedAt := 3 }

/-- A live (confirmed) reservation `r2` over room 7. -/
def resConfirmed : Reservation :=
  { resCheckedOut with id := "r2", status := "confirmed" }

/-- The junction row of `resConfirmed`. -/
def rrConfirmed : ReservationRoom :=
  { rrCheckedOut with id := 2, reservationId := "r2" }

/-- A store holding the live reservation `r2`. -/
def dbLive : DB :=
  { dbEmpty with
      reservations := [resConfirmed],
      reservationRooms := [rrConfirmed],
      rooms := [{ id := 7, branchId := 1, status := "reserved" }],
      nextReservationRoomId := 3 }

/-- A legacy status-only PATCH body checking the guest in. -/
def patchCheckIn : PatchBody := { legacy := { status := some "checked-in" } }

/-- Measure for the dedup claims: the sum of every guest's denormalised
`reservationCount`. -/
def totalReservationCount (db : DB) : Nat :=
  (db.guests.map (fun g => g.reservationCount)).sum

/-- Measure for the dedup claims: how many active guests carry exactly the
phone `p`. -/
def activePhoneCount (db : DB) (p : String) : Nat :=
  (db.guests.filter (fun g => g.isActive && g.phone == p)).length

/-- The create run against the store holding `guestJane`. -/
def runJane : HResult Reservation :=
  postReservations cpTrue dbWithJane adminUser bodyScenario nowScenario

/-- The store after `runJane`. -/
def dbAfterJane : DB := (runJane.dbOut?).getD dbEmpty

/-- The reservation stored by `runJane`. -/
def resAfterJane : Reservation :=
  (runJane.value?).getD
    { id := "", branchId := 0, guestId := 0, status := "",
      confirmationNumber := "", totalAmount := "", taxAmount := "",
      appliedTaxes := [], createdById := "" }

/-- Junction row A of reservation `r3` (room 11). -/
def rrA : ReservationRoom :=
  { rrCheckedOut with id := 1, reservationId := "r3", roomId := 11 }

/-- Junction row B of reservation `r3` (room 12). -/
def rrB : ReservationRoom :=
  { rrCheckedOut with id := 2, reservationId := "r3", roomId := 12 }

/-- Junction row C of reservation `r3` (room 13). -/
def rrC : ReservationRoom :=
  { rrCheckedOut with id := 3, reservationId := "r3", roomId := 13 }

/-- The live three-room reservation `r3`. -/
def resABC : Reservation :=
  { resCheckedOut with id := "r3", status := "confirmed" }

/-- A store holding `r3` with rooms {A,B,C} assigned and a free room 14. -/
def dbABC : DB :=
  { dbEmpty with
      reservations := [resABC],
      reservationRooms := [rrA, rrB, rrC],
      rooms := [{ id := 11, branchId := 1, status := "reserved" },
                { id := 12, branchId := 1, status := "reserved" },
                { id := 13, branchId := 1, status := "reserved" },
                { id := 14, branchId := 1, status := "available" }],
      nextReservationRoomId := 4 }

/-- The update payload entry for B (carries its id). -/
def rdB : RoomInput :=
  { id := some 2, roomId := 12, checkInDate := "2025-02-01",
    checkOutDate := "2025-02-03", adults := 2, children := 0,
    ratePerNight := "120.00", totalAmount := "240.00",
    specialRequests := some "late checkout" }

/-- The new payload entry D (no id, room 14). -/
def rdD : RoomInput :=
  { id := none, roomId := 14, checkInDate := "2025-02-01",
    checkOutDate := "2025-02-02", adults := 1, children := 0,
    ratePerNight := "90.00", totalAmount := "90.00" }

/-- The comprehensive PATCH body {B (updated), D (new)}. -/
def patchBD : PatchBody := { rooms := some [rdB, rdD] }

/-- The store after reconciling `r3` with {B,D}. -/
def dbAfterBD : DB :=
  ((patchReservation cpTrue dbABC adminUser "r3" patchBD).dbOut?).getD dbEmpty

/-- The scenario create run (used to name its components in witnesses). -/
def runScenario : HResult Reservation :=
  postReservations cpTrue dbScenario adminUser bodyScenario nowScenario

/-- The store after the scenario create run. -/
def dbAfterScenario : DB := (runScenario.dbOut?).getD dbEmpty

/-- The reservation stored by the scenario create run. -/
def resAfterScenario : Reservation :=
  (runScenario.value?).getD
    { id := "", branchId := 0, guestId := 0, status := "",
      confirmationNumber := "", totalAmount := "", taxAmount := "",
      appliedTaxes := [], createdById := "" }

/-!
# Theorems

Each claim of the review gets one theorem (plus a witness when the theorem
carries hypotheses, and a counterexample where the claim fails on the code).
-/

/-- Claim C7, counterexample: for the role `front-desk` with matching caller
and target branch, `checkBranchPermissions` returns `false`, although the
claim demands `true` whenever the caller's assigned branch equals the target
branch. -/
theorem C7_counterexample :
    checkBranchPermissions "front-desk" (some 1) (some 1) = false := by decide

/-- Claim C7 (amended): `checkBranchPermissions` returns `true` for
superadmin and for an absent target branch; for the roles `branch-admin` and
`custom` it returns `true` iff the caller's branch equals the (non-zero)
target branch; for every other role it returns `false` when a non-zero
target branch is given. -/
theorem C7_checkBranchPermissions_cases :
    (∀ ub tb, checkBranchPermissions "superadmin" ub tb = true) ∧
    (∀ role ub, checkBranchPermissions role ub none = true) ∧
    (∀ ub tb, tb ≠ 0 →
      checkBranchPermissions "branch-admin" ub (some tb) = (ub == some tb)) ∧
    (∀ ub tb, tb ≠ 0 →
      checkBranchPermissions "custom" ub (some tb) = (ub == some tb)) ∧
    (∀ role ub tb, role ≠ "superadmin" → role ≠ "branch-admin" → role ≠ "custom" →
      tb ≠ 0 → checkBranchPermissions role ub (some tb) = false) := by
  refine ⟨fun ub tb => ?_, fun role ub => ?_, fun ub tb h => ?_, fun ub tb h => ?_,
    fun role ub tb h1 h2 h3 h4 => ?_⟩ <;>
    simp [checkBranchPermissions, jsTruthyOptNat, *]

/-- Witness for C7: the branch-matching case for `branch-admin` evaluated at
branch 2. -/
theorem C7_witness :
    (2 : Nat) ≠ 0 ∧ checkBranchPermissions "branch-admin" (some 2) (some 2) = (some 2 == some 2) :=
  ⟨by decide, C7_checkBranchPermissions_cases.2.2.1 (some 2) 2 (by decide)⟩

/-- Claim C8: branch deletion is two-phase.  On an active branch the handler
answers `deactivated`, flips `isActive` to false, and keeps the branch row
and every child table untouched; on an inactive branch it answers `deleted`
and removes the branch row. -/
theorem C8_branch_delete_two_phase (db : DB) (user : User) (bid : Nat) (branch : Branch)
    (hrole : user.role = "superadmin") (hfound : db.findBranch bid = some branch) :
    (branch.isActive = true →
      deleteBranchEndpoint db user bid = .ok (db.setBranchActive bid false) "deactivated" ∧
      (∃ b ∈ (db.setBranchActive bid false).branches, b.id = bid ∧ b.isActive = false) ∧
      (db.setBranchActive bid false).branches.length = db.branches.length ∧
      (db.setBranchActive bid false).guests = db.guests ∧
      (db.setBranchActive bid false).rooms = db.rooms ∧
      (db.setBranchActive bid false).reservations = db.reservations ∧
      (db.setBranchActive bid false).reservationRooms = db.reservationRooms) ∧
    (branch.isActive = false →
      deleteBranchEndpoint db user bid = .ok (db.deleteBranch bid) "deleted" ∧
      (∀ b ∈ (db.deleteBranch bid).branches, b.id ≠ bid)) := by
  have hmem : branch ∈ db.branches := List.mem_of_find?_eq_some hfound
  have hid : branch.id = bid := by
    have := List.find?_some hfound
    simpa using this
  constructor
  · intro hact
    have hresp : deleteBranchEndpoint db user bid
        = .ok (db.setBranchActive bid false) "deactivated" := by
      simp [deleteBranchEndpoint, hrole, hfound, hact]
    refine ⟨hresp, ?_, by simp [DB.setBranchActive], rfl, rfl, rfl, rfl⟩
    refine ⟨{ branch with isActive := false }, ?_, hid, rfl⟩
    have h1 : (fun b => if b.id = bid then { b with isActive := false } else b) branch
        = { branch with isActive := false } := by simp [hid]
    have h2 := List.mem_map_of_mem
      (fun b => if b.id = bid then { b with isActive := false } else b) hmem
    rw [h1] at h2
    simpa [DB.setBranchActive] using h2
  · intro hact
    have hresp : deleteBranchEndpoint db user bid
        = .ok (db.deleteBranch bid) "deleted" := by
      simp [deleteBranchEndpoint, hrole, hfound, hact]
    refine ⟨hresp, ?_⟩
    intro b hb
    have hb' : b ∈ db.branches ∧ ¬b.id = bid := by
      simpa [DB.deleteBranch] using hb
    exact hb'.2


/-- Witness for C8: deleting active branch 1 of the scenario store
deactivates it. -/
theorem C8_witness :
    adminUser.role = "superadmin" ∧
    (deleteBranchEndpoint dbScenario adminUser 1
        = .ok (dbScenario.setBranchActive 1 false) "deactivated" ∧
      ∃ b ∈ (dbScenario.setBranchActive 1 false).branches, b.id = 1 ∧ b.isActive = false) :=
  ⟨rfl, by
    have h := C8_branch_delete_two_phase dbScenario adminUser 1
      { id := 1, name := "Main", isActive := true } rfl (by decide)
    exact ⟨(h.1 rfl).1, (h.1 rfl).2.1⟩⟩

/-- Claim C9, counterexample: in the spec's concrete scenario the stored
amounts are the JS `Number.toString` renderings `"20"` and `"220"`, not the
two-decimal strings `"20.00"` and `"220.00"` the claim states. -/
theorem C9_counterexample :
    ((postReservations cpTrue dbScenario adminUser bodyScenario nowScenario).value?.map
      (fun r => (r.taxAmount, r.totalAmount)) = some ("20", "220")) ∧
    (some (("20", "220") : String × String) ≠ some ("20.00", "220.00")) :=
  ⟨by with_unfolding_all rfl, by decide⟩

/-- Claim C9 (amended): the concrete scenario — one room at 100.00 for two
nights (line total "200.00") and one active 10% reservation tax — yields
`taxAmount = "20"`, `totalAmount = "220"`, and a confirmation number matching
`RES\d{8}`. -/
theorem C9_concrete_scenario :
    (postReservations cpTrue dbScenario adminUser bodyScenario nowScenario).value?.map
      (fun r => (r.taxAmount, r.totalAmount, matchesResPattern r.confirmationNumber))
      = some ("20", "220", true) := by
  with_unfolding_all rfl

/-- Claim C1, counterexample: with one active 10% tax and a single room line
of 33.33 the handler stores the unrounded total `3.333` (total `36.663`),
while the claim's totals — built from the per-tax amounts rounded to two
decimals — would be `3.33` and `36.66`. -/
theorem C1_counterexample :
    ((postReservations cpTrue dbScenario adminUser bodyThirds nowScenario).value?.map
      (fun r => (r.taxAmount, r.totalAmount)) = some ("3.333", "36.663")) ∧
    jsNumToString (specTotalTax (getActiveReservationTaxes dbScenario.taxes)
      (computeSubtotal bodyThirds.rooms)) = "3.33" ∧
    jsNumToString (computeSubtotal bodyThirds.rooms
      + specTotalTax (getActiveReservationTaxes dbScenario.taxes)
        (computeSubtotal bodyThirds.rooms)) = "36.66" ∧
    (some (("3.333", "36.663") : String × String) ≠ some ("3.33", "36.66")) :=
  ⟨by with_unfolding_all rfl, by with_unfolding_all rfl, by with_unfolding_all rfl,
    by decide⟩

/-- Claim C2, counterexample: creating a reservation with an empty rooms
array for the existing active guest succeeds but leaves the guest's
`reservationCount` at 0 — the increment happens only when at least one
junction row is inserted. -/
theorem C2_counterexample :
    dbWithJane.guests.map (fun g => g.reservationCount) = [0] ∧
    ((postReservations cpTrue dbWithJane adminUser bodyNoRooms nowScenario).dbOut?.map
      (fun d => d.guests.map (fun g => g.reservationCount)) = some [0]) :=
  ⟨by decide, by with_unfolding_all rfl⟩

/-- Claim C4, counterexample: DELETE /api/reservations/:id carries no
terminal-state guard — cancelling the checked-out reservation `r1` succeeds,
flips its status to `cancelled` and reverts its room to `available` instead
of failing with `EditForbiddenError`. -/
theorem C4_counterexample :
    dbCheckedOut.reservations.map (fun r => r.status) = ["checked-out"] ∧
    ((deleteReservation cpTrue dbCheckedOut adminUser "r1").dbOut?.map
      (fun d => (d.reservations.map (fun r => r.status),
                 d.rooms.map (fun room => room.status)))
      = some (["cancelled"], ["available"])) :=
  ⟨by decide, by with_unfolding_all rfl⟩

/-- Claim C10, counterexample: the phone's owner (guest 1) is deactivated,
but the active guest 2 — whose own phone contains the query as a substring —
is matched by the search and reused: no new guest record is created. -/
theorem C10_counterexample :
    dbDeactivated.guests.map (fun g => (g.id, g.phone, g.isActive))
      = [(1, "555-0100", false), (2, "9555-0100", true)] ∧
    ((postReservations cpTrue dbDeactivated adminUser bodyScenario nowScenario).dbOut?.map
      (fun d => d.guests.length) = some 2) ∧
    ((postReservations cpTrue dbDeactivated adminUser bodyScenario nowScenario).value?.map
      (fun r => r.guestId) = some 2) :=
  ⟨by decide, by with_unfolding_all rfl, by with_unfolding_all rfl⟩

/-! ### Helper lemmas about the storage operations -/

/-- `setRoomsStatus` touches only the `rooms` table. -/
theorem setRoomsStatus_shape {α : Type} (roomIdOf : α → Nat) (s : String)
    (l : List α) (db : DB) :
    setRoomsStatus roomIdOf s db l
      = { db with rooms := (setRoomsStatus roomIdOf s db l).rooms } := by
  induction l generalizing db with
  | nil => rfl
  | cons a t ih =>
    calc setRoomsStatus roomIdOf s db (a :: t)
        = setRoomsStatus roomIdOf s (db.updateRoomStatus (roomIdOf a) s) t := rfl
      _ = { db.updateRoomStatus (roomIdOf a) s with
            rooms := (setRoomsStatus roomIdOf s (db.updateRoomStatus (roomIdOf a) s) t).rooms } :=
        ih _
      _ = { db with rooms := (setRoomsStatus roomIdOf s db (a :: t)).rooms } := rfl

/-- The rooms table after a constant-status loop: every listed room carries
the new status, every other room is untouched. -/
theorem setRoomsStatus_rooms {α : Type} (roomIdOf : α → Nat) (s : String)
    (l : List α) (db : DB) :
    (setRoomsStatus roomIdOf s db l).rooms
      = db.rooms.map (fun room =>
          if l.any (fun a => room.id == roomIdOf a) then { room with status := s }
          else room) := by
  induction l generalizing db with
  | nil => simp [setRoomsStatus]
  | cons a t ih =>
    show (setRoomsStatus roomIdOf s (db.updateRoomStatus (roomIdOf a) s) t).rooms = _
    rw [ih]
    simp only [DB.updateRoomStatus, List.map_map, List.any_cons]
    refine List.map_congr_left ?_
    intro room _
    by_cases hc : room.id = roomIdOf a <;> by_cases ht : t.any (fun b => room.id == roomIdOf b) <;>
      simp [Function.comp, hc, ht]

/-- After a constant-status loop, a room named by any loop element has that
status. -/
theorem setRoomsStatus_status_of_mem {α : Type} (roomIdOf : α → Nat) (s : String)
    (l : List α) (db : DB) (a : α) (ha : a ∈ l) :
    ∀ room ∈ (setRoomsStatus roomIdOf s db l).rooms, room.id = roomIdOf a →
      room.status = s := by
  intro room hroom hid
  rw [setRoomsStatus_rooms] at hroom
  obtain ⟨room0, h0, himg⟩ := List.mem_map.mp hroom
  by_cases hc : (l.any (fun b => room0.id == roomIdOf b)) = true
  · rw [if_pos hc] at himg
    exact himg ▸ rfl
  · rw [if_neg hc] at himg
    subst himg
    exact absurd (List.any_eq_true.mpr ⟨a, ha, by simp [hid]⟩) hc

/-- The transactional create returns the reservation record it was given. -/
theorem createReservationTx_snd (db : DB) (r : Reservation) (roomsData : List RoomInput) :
    (db.createReservationTx r roomsData).2 = r := by
  unfold DB.createReservationTx
  split <;> rfl

/-- Guest resolution never touches the taxes table. -/
theorem resolveGuest_taxes (db : DB) (gi : GuestInput) (b : Nat) :
    (resolveGuest db gi b).1.taxes = db.taxes := by
  unfold resolveGuest DB.createGuest
  split
  · split <;> rfl
  · rfl

/-- Inversion of a successful POST /api/reservations run. -/
theorem postReservations_ok (cp : String → String → Bool) (db : DB) (user : User)
    (body : CreateBody) (now : Nat) (db' : DB) (r : Reservation)
    (h : postReservations cp db user body now = .ok db' r) :
    db' = (finishCreate (resolveGuest db body.guest (effectiveResData user body).branchId).1
             user (effectiveResData user body)
             (resolveGuest db body.guest (effectiveResData user body).branchId).2
             body.rooms now).1 ∧
    r = (finishCreate (resolveGuest db body.guest (effectiveResData user body).branchId).1
             user (effectiveResData user body)
             (resolveGuest db body.guest (effectiveResData user body).branchId).2
             body.rooms now).2 := by
  unfold postReservations at h
  split at h
  · cases h
  · split at h
    · cases h
    · split at h
      · cases h
      · cases h
        exact ⟨rfl, rfl⟩

/-- The fields of the reservation record a successful create stores. -/
theorem finishCreate_snd (db1 : DB) (user : User) (resData : ReservationInput)
    (guest : Guest) (rooms : List RoomInput) (now : Nat) :
    (finishCreate db1 user resData guest rooms now).2 =
      { id := "res-" ++ Nat.repr db1.nextReservationNum,
        branchId := resData.branchId,
        guestId := guest.id,
        status := resData.status,
        confirmationNumber := "RES" ++ jsSliceLast 8 (Nat.repr now),
        totalAmount := jsNumToString (computeSubtotal rooms +
          (applyTaxes (getActiveReservationTaxes db1.taxes) (computeSubtotal rooms)).totalTaxAmount),
        taxAmount := jsNumToString
          (applyTaxes (getActiveReservationTaxes db1.taxes) (computeSubtotal rooms)).totalTaxAmount,
        appliedTaxes := (applyTaxes (getActiveReservationTaxes db1.taxes) (computeSubtotal rooms)).appliedTaxes,
        createdById := user.id } := by
  unfold finishCreate
  rw [createReservationTx_snd]

/-- The tax loop in closed form: the total is the sum of the UNROUNDED
per-tax amounts, while each breakdown entry carries the rounded amount. -/
theorem applyTaxes_foldl (sub : ℚ) (ts : List Tax) (acc : TaxAccum) :
    ts.foldl (applyTaxStep sub) acc
      = { totalTaxAmount := acc.totalTaxAmount
            + (ts.map (fun t => sub * parseFloat t.rate / 100)).sum,
          appliedTaxes := acc.appliedTaxes
            ++ ts.map (fun t =>
                { taxId := t.id, taxName := t.taxName, rate := parseFloat t.rate,
                  amount := round2 (sub * parseFloat t.rate / 100) }) } := by
  induction ts generalizing acc with
  | nil => simp
  | cons t ts ih =>
    rw [List.foldl_cons, ih]
    simp [applyTaxStep, add_assoc]

/-- Closed form of `applyTaxes`. -/
theorem applyTaxes_spec (ts : List Tax) (sub : ℚ) :
    applyTaxes ts sub
      = { totalTaxAmount := (ts.map (fun t => sub * parseFloat t.rate / 100)).sum,
          appliedTaxes := ts.map (fun t =>
            { taxId := t.id, taxName := t.taxName, rate := parseFloat t.rate,
              amount := round2 (sub * parseFloat t.rate / 100) }) } := by
  rw [applyTaxes, applyTaxes_foldl]
  simp

/-- Claim C1 (amended): for every reservation stored by a successful create,
`totalAmount` renders `subtotal + totalTax` where `totalTax` is the sum of
the UNROUNDED per-tax amounts `subtotal * rate / 100`; each breakdown entry
carries the rounded amount `round(subtotal * rate / 100, 2)`; and with no
active reservation-type tax the total is 0 and the breakdown empty (the
operation does not error for that reason). -/
theorem C1_create_totals (cp : String → String → Bool) (db : DB) (user : User)
    (body : CreateBody) (now : Nat) (db' : DB) (r : Reservation)
    (hrooms : body.rooms ≠ [])
    (h : postReservations cp db user body now = .ok db' r) :
    r.totalAmount = jsNumToString (computeSubtotal body.rooms
      + (applyTaxes (getActiveReservationTaxes db.taxes)
          (computeSubtotal body.rooms)).totalTaxAmount) ∧
    r.taxAmount = jsNumToString
      (applyTaxes (getActiveReservationTaxes db.taxes)
        (computeSubtotal body.rooms)).totalTaxAmount ∧
    (applyTaxes (getActiveReservationTaxes db.taxes)
        (computeSubtotal body.rooms)).totalTaxAmount
      = ((getActiveReservationTaxes db.taxes).map
          (fun t => computeSubtotal body.rooms * parseFloat t.rate / 100)).sum ∧
    r.appliedTaxes = (getActiveReservationTaxes db.taxes).map (fun t =>
      { taxId := t.id, taxName := t.taxName, rate := parseFloat t.rate,
        amount := round2 (computeSubtotal body.rooms * parseFloat t.rate / 100) }) ∧
    (getActiveReservationTaxes db.taxes = [] →
      (applyTaxes (getActiveReservationTaxes db.taxes)
        (computeSubtotal body.rooms)).totalTaxAmount = 0 ∧
      r.appliedTaxes = []) := by
  obtain ⟨-, hr⟩ := postReservations_ok cp db user body now db' r h
  rw [finishCreate_snd, resolveGuest_taxes] at hr
  subst hr
  refine ⟨rfl, rfl, by rw [applyTaxes_spec], by rw [applyTaxes_spec], ?_⟩
  intro hempty
  rw [hempty]
  exact ⟨rfl, by simp [applyTaxes_spec]⟩

/-- Witness for C1: the amended totals at the concrete scenario run. -/
theorem C1_witness :
    bodyScenario.rooms ≠ [] ∧
    postReservations cpTrue dbScenario adminUser bodyScenario nowScenario
      = .ok dbAfterScenario resAfterScenario ∧
    (resAfterScenario.totalAmount = jsNumToString (computeSubtotal bodyScenario.rooms
      + (applyTaxes (getActiveReservationTaxes dbScenario.taxes)
          (computeSubtotal bodyScenario.rooms)).totalTaxAmount) ∧
    resAfterScenario.taxAmount = jsNumToString
      (applyTaxes (getActiveReservationTaxes dbScenario.taxes)
        (computeSubtotal bodyScenario.rooms)).totalTaxAmount ∧
    (applyTaxes (getActiveReservationTaxes dbScenario.taxes)
        (computeSubtotal bodyScenario.rooms)).totalTaxAmount
      = ((getActiveReservationTaxes dbScenario.taxes).map
          (fun t => computeSubtotal bodyScenario.rooms * parseFloat t.rate / 100)).sum ∧
    resAfterScenario.appliedTaxes = (getActiveReservationTaxes dbScenario.taxes).map (fun t =>
      { taxId := t.id, taxName := t.taxName, rate := parseFloat t.rate,
        amount := round2 (computeSubtotal bodyScenario.rooms * parseFloat t.rate / 100) }) ∧
    (getActiveReservationTaxes dbScenario.taxes = [] →
      (applyTaxes (getActiveReservationTaxes dbScenario.taxes)
        (computeSubtotal bodyScenario.rooms)).totalTaxAmount = 0 ∧
      resAfterScenario.appliedTaxes = [])) :=
  ⟨by decide, by with_unfolding_all rfl,
    C1_create_totals cpTrue dbScenario adminUser bodyScenario nowScenario
      dbAfterScenario resAfterScenario (by decide) (by with_unfolding_all rfl)⟩

/-- Inversion of a successful DELETE /api/reservations/:id run. -/
theorem deleteReservation_ok (cp : String → String → Bool) (db : DB) (user : User)
    (rid : String) (db' : DB) (h : deleteReservation cp db user rid = .ok db' ()) :
    (∃ existing, db.findReservation rid = some existing) ∧
    db' = cancelReservationCore db rid := by
  unfold deleteReservation at h
  split at h
  · cases h
  · split at h
    · cases h
    · next existing heq =>
      split at h
      · cases h
      · cases h
        exact ⟨⟨existing, heq⟩, rfl⟩

/-- Inversion of a successful PATCH run that took the legacy branch. -/
theorem patchReservation_ok_legacy (cp : String → String → Bool) (db : DB)
    (user : User) (rid : String) (body : PatchBody) (db' : DB)
    (hng : body.guest = none) (hnr : body.reservation = none)
    (hnrm : body.rooms = none)
    (h : patchReservation cp db user rid body = .ok db' ()) :
    db' = legacyUpdate db rid body.legacy := by
  unfold patchReservation at h
  split at h
  · cases h
  · split at h
    · cases h
    · next existing heq =>
      split at h
      · cases h
      · split at h
        · cases h
        · split at h
          · next hcond =>
            rw [hng, hnr, hnrm] at hcond
            simp at hcond
          · cases h
            rfl

/-- Inversion of a successful PATCH run that took the comprehensive branch. -/
theorem patchReservation_ok_comprehensive (cp : String → String → Bool) (db : DB)
    (user : User) (rid : String) (body : PatchBody) (db' : DB)
    (h : patchReservation cp db user rid body = .ok db' ())
    (hcomp : (body.guest.isSome || body.reservation.isSome || body.rooms.isSome) = true) :
    ∃ existing, db.findReservation rid = some existing ∧
      db' = comprehensiveUpdate db existing rid body := by
  unfold patchReservation at h
  split at h
  · cases h
  · split at h
    · cases h
    · next existing heq =>
      split at h
      · cases h
      · split at h
        · cases h
        · cases h
          exact ⟨existing, heq, rfl⟩

/-- Claim C4 (amended): a reservation in a terminal state (`checked-out` or
`cancelled`) can never be modified through PATCH — the handler always
errors, and specifically with the edit-forbidden 403 whenever the caller
passes the permission and branch checks.  DELETE, however, carries no such
guard: for an authorized caller it proceeds, cancelling the reservation and
reverting its rooms. -/
theorem C4_terminal_guard (cp : String → String → Bool) (db : DB) (user : User)
    (rid : String) (body : PatchBody) (r : Reservation)
    (hfound : db.findReservation rid = some r)
    (hterm : r.status = "checked-out" ∨ r.status = "cancelled") :
    (∀ db' u, patchReservation cp db user rid body ≠ .ok db' u) ∧
    (checkUserPermission cp user "reservations" "write" = true →
      checkBranchPermissions user.role user.branchId (some r.branchId) = true →
      patchReservation cp db user rid body
        = .err 403 "Cannot edit reservation after checkout or cancellation") ∧
    (checkUserPermission cp user "reservations" "delete" = true →
      checkBranchPermissions user.role user.branchId (some r.branchId) = true →
      deleteReservation cp db user rid = .ok (cancelReservationCore db rid) ()) := by
  have hcond : (r.status == "checked-out" || r.status == "cancelled") = true := by
    rcases hterm with h | h <;> simp [h]
  refine ⟨?_, ?_, ?_⟩
  · intro db' u hok
    unfold patchReservation at hok
    split at hok
    · cases hok
    · rw [hfound] at hok
      simp only [hcond] at hok
      split at hok
      · cases hok
      · simp at hok
  · intro hperm hbranch
    simp [patchReservation, hperm, hfound, hbranch, hcond]
  · intro hperm hbranch
    simp [deleteReservation, hperm, hfound, hbranch]

/-- Witness for C4: the checked-out reservation `r1`, with the superadmin
caller. -/
theorem C4_witness :
    dbCheckedOut.findReservation "r1" = some resCheckedOut ∧
    (resCheckedOut.status = "checked-out" ∨ resCheckedOut.status = "cancelled") ∧
    ((∀ db' u, patchReservation cpTrue dbCheckedOut adminUser "r1" {} ≠ .ok db' u) ∧
    (checkUserPermission cpTrue adminUser "reservations" "write" = true →
      checkBranchPermissions adminUser.role adminUser.branchId (some resCheckedOut.branchId) = true →
      patchReservation cpTrue dbCheckedOut adminUser "r1" {}
        = .err 403 "Cannot edit reservation after checkout or cancellation") ∧
    (checkUserPermission cpTrue adminUser "reservations" "delete" = true →
      checkBranchPermissions adminUser.role adminUser.branchId (some resCheckedOut.branchId) = true →
      deleteReservation cpTrue dbCheckedOut adminUser "r1"
        = .ok (cancelReservationCore dbCheckedOut "r1") ())) :=
  ⟨by decide, Or.inl rfl,
    C4_terminal_guard cpTrue dbCheckedOut adminUser "r1" {} resCheckedOut
      (by decide) (Or.inl rfl)⟩

/-- The store of a successful create ends with the constant-status loop over
the payload rooms. -/
theorem finishCreate_fst (db1 : DB) (user : User) (resData : ReservationInput)
    (guest : Guest) (rooms : List RoomInput) (now : Nat) :
    ∃ dbMid, (finishCreate db1 user resData guest rooms now).1
      = setRoomsStatus (fun rd => rd.roomId) "reserved" dbMid rooms :=
  ⟨_, rfl⟩

/-- `cancelReservationCore` as a constant-status loop over the reservation's
junction rows. -/
theorem cancelReservationCore_eq (db : DB) (rid : String) :
    cancelReservationCore db rid
      = setRoomsStatus (fun rr => rr.roomId) "available"
          (db.updateReservation rid { status := some "cancelled" })
          (db.getReservationRooms rid) := rfl

/-- Claim C5: after a successful creation every assigned room's status is
`reserved`; a successful cancellation keeps the reservation row, sets its
status to `cancelled`, and sets every associated room to `available`. -/
theorem C5_room_lifecycle :
    (∀ cp db user body now db' r,
      postReservations cp db user body now = .ok db' r →
      ∀ rd ∈ body.rooms, ∀ room ∈ db'.rooms, room.id = rd.roomId →
        room.status = "reserved") ∧
    (∀ cp db user rid db',
      deleteReservation cp db user rid = .ok db' () →
      (∃ r' ∈ db'.reservations, r'.id = rid ∧ r'.status = "cancelled") ∧
      (∀ rr ∈ db.getReservationRooms rid, ∀ room ∈ db'.rooms, room.id = rr.roomId →
        room.status = "available")) := by
  constructor
  · intro cp db user body now db' r h rd hrd room hroom hid
    obtain ⟨hdb, -⟩ := postReservations_ok cp db user body now db' r h
    obtain ⟨dbMid, hmid⟩ := finishCreate_fst
      (resolveGuest db body.guest (effectiveResData user body).branchId).1
      user (effectiveResData user body)
      (resolveGuest db body.guest (effectiveResData user body).branchId).2
      body.rooms now
    rw [hdb, hmid] at hroom
    exact setRoomsStatus_status_of_mem _ _ _ _ rd hrd room hroom hid
  · intro cp db user rid db' h
    obtain ⟨⟨existing, heq⟩, hdb⟩ := deleteReservation_ok cp db user rid db' h
    have hmem : existing ∈ db.reservations := List.mem_of_find?_eq_some heq
    have hid : existing.id = rid := by
      have := List.find?_some heq
      simpa using this
    subst hdb
    constructor
    · refine ⟨applyReservationPatch { status := some "cancelled" } existing, ?_, ?_, rfl⟩
      · rw [cancelReservationCore_eq]
        have hres : (setRoomsStatus (fun rr => rr.roomId) "available"
            (db.updateReservation rid { status := some "cancelled" })
            (db.getReservationRooms rid)).reservations
            = (db.updateReservation rid { status := some "cancelled" }).reservations := by
          rw [setRoomsStatus_shape]
        rw [hres]
        have himg := List.mem_map_of_mem
          (fun r => if r.id = rid then applyReservationPatch { status := some "cancelled" } r else r)
          hmem
        simpa [hid, DB.updateReservation] using himg
      · show existing.id = rid
        exact hid
    · intro rr hrr room hroom hidr
      rw [cancelReservationCore_eq] at hroom
      exact setRoomsStatus_status_of_mem _ _ _ _ rr hrr room hroom hidr

/-- Witness for C5: the scenario create run reserves room 5, and cancelling
the checked-out fixture reverts room 7. -/
theorem C5_witness :
    (postReservations cpTrue dbScenario adminUser bodyScenario nowScenario
        = .ok dbAfterScenario resAfterScenario ∧
      roomEntry200 ∈ bodyScenario.rooms ∧
      (∀ room ∈ dbAfterScenario.rooms, room.id = roomEntry200.roomId →
        room.status = "reserved")) ∧
    (deleteReservation cpTrue dbCheckedOut adminUser "r1"
        = .ok (cancelReservationCore dbCheckedOut "r1") () ∧
      (∃ r' ∈ (cancelReservationCore dbCheckedOut "r1").reservations,
        r'.id = "r1" ∧ r'.status = "cancelled") ∧
      (∀ rr ∈ dbCheckedOut.getReservationRooms "r1",
        ∀ room ∈ (cancelReservationCore dbCheckedOut "r1").rooms,
          room.id = rr.roomId → room.status = "available")) := by
  constructor
  · refine ⟨by with_unfolding_all rfl, by decide, ?_⟩
    intro room hroom hid
    exact C5_room_lifecycle.1 cpTrue dbScenario adminUser bodyScenario nowScenario
      dbAfterScenario resAfterScenario (by with_unfolding_all rfl)
      roomEntry200 (by decide) room hroom hid
  · refine ⟨by with_unfolding_all rfl, ?_⟩
    exact C5_room_lifecycle.2 cpTrue dbCheckedOut adminUser "r1"
      (cancelReservationCore dbCheckedOut "r1") (by with_unfolding_all rfl)

/-- Claim C6: a legacy (status-only) update that carries a status cascades
the fixed room-status mapping to every room of the reservation:
checked-in→occupied, checked-out→available, cancelled→available,
confirmed/pending→reserved, anything else→reserved. -/
theorem C6_status_cascade (cp : String → String → Bool) (db : DB) (user : User)
    (rid : String) (body : PatchBody) (db' : DB) (s : String)
    (hng : body.guest = none) (hnr : body.reservation = none)
    (hnrm : body.rooms = none)
    (hs : body.legacy.status = some s) (hne : s ≠ "")
    (h : patchReservation cp db user rid body = .ok db' ()) :
    (∀ rr ∈ db.getReservationRooms rid, ∀ room ∈ db'.rooms, room.id = rr.roomId →
      room.status = roomStatusFor s) ∧
    roomStatusFor "checked-in" = "occupied" ∧
    roomStatusFor "checked-out" = "available" ∧
    roomStatusFor "cancelled" = "available" ∧
    roomStatusFor "confirmed" = "reserved" ∧
    roomStatusFor "pending" = "reserved" ∧
    (s ≠ "checked-in" → s ≠ "checked-out" → s ≠ "cancelled" → s ≠ "confirmed" →
      s ≠ "pending" → roomStatusFor s = "reserved") := by
  have hdb := patchReservation_ok_legacy cp db user rid body db' hng hnr hnrm h
  subst hdb
  refine ⟨?_, rfl, rfl, rfl, rfl, rfl, ?_⟩
  · intro rr hrr room hroom hid
    have hred : legacyUpdate db rid body.legacy
        = setRoomsStatus (fun rr => rr.roomId) (roomStatusFor s)
            (db.updateReservation rid body.legacy) (db.getReservationRooms rid) := by
      rw [legacyUpdate, hs]
      exact if_pos hne
    rw [hred] at hroom
    exact setRoomsStatus_status_of_mem _ _ _ _ rr hrr room hroom hid
  · intro h1 h2 h3 h4 h5
    simp [roomStatusFor, h1, h2, h3, h4, h5]

/-- Witness for C6: checking reservation `r2` in cascades `occupied` to
room 7. -/
theorem C6_witness :
    patchCheckIn.guest = none ∧ patchCheckIn.reservation = none ∧
    patchCheckIn.rooms = none ∧
    patchCheckIn.legacy.status = some "checked-in" ∧ ("checked-in" : String) ≠ "" ∧
    patchReservation cpTrue dbLive adminUser "r2" patchCheckIn
      = .ok (legacyUpdate dbLive "r2" patchCheckIn.legacy) () ∧
    (∀ rr ∈ dbLive.getReservationRooms "r2",
      ∀ room ∈ (legacyUpdate dbLive "r2" patchCheckIn.legacy).rooms,
        room.id = rr.roomId → room.status = roomStatusFor "checked-in") :=
  ⟨rfl, rfl, rfl, rfl, by decide, by with_unfolding_all rfl,
    (C6_status_cascade cpTrue dbLive adminUser "r2" patchCheckIn
      (legacyUpdate dbLive "r2" patchCheckIn.legacy) "checked-in" rfl rfl rfl rfl
      (by decide) (by with_unfolding_all rfl)).1⟩

/-! ### Guest-search and counter lemmas (for the dedup claims) -/

/-- `prefixMatch` is reflexive. -/
theorem prefixMatch_refl (l : List Char) : prefixMatch l l = true := by
  induction l with
  | nil => rfl
  | cons c t ih => simp [prefixMatch, ih]

/-- Every list occurs inside itself. -/
theorem substringMatch_self (l : List Char) : substringMatch l l = true := by
  cases l with
  | nil => rfl
  | cons c t => simp [substringMatch, prefixMatch_refl]

/-- `ILIKE '%s%'` matches the field `s` itself. -/
theorem ilikeContains_self (s : String) : ilikeContains s s = true :=
  substringMatch_self _

/-- A guest whose phone is exactly the query matches the search disjunction. -/
theorem guestMatchesQuery_of_phone (q : String) (g : Guest) (h : g.phone = q) :
    guestMatchesQuery q g = true := by
  simp [guestMatchesQuery, ← h, ilikeContains_self]

/-- Membership through the descending-`createdAt` insertion. -/
theorem mem_insertByCreatedAtDesc (g a : Guest) (l : List Guest) :
    g ∈ insertByCreatedAtDesc a l ↔ g = a ∨ g ∈ l := by
  induction l with
  | nil => simp [insertByCreatedAtDesc]
  | cons h t ih =>
    simp only [insertByCreatedAtDesc]
    split
    · simp
    · simp [ih]
      tauto

/-- Sorting by `createdAt` preserves membership. -/
theorem mem_sortByCreatedAtDesc (g : Guest) (l : List Guest) :
    g ∈ sortByCreatedAtDesc l ↔ g ∈ l := by
  induction l with
  | nil => simp [sortByCreatedAtDesc]
  | cons a t ih =>
    show g ∈ insertByCreatedAtDesc a (sortByCreatedAtDesc t) ↔ _
    rw [mem_insertByCreatedAtDesc, ih]
    simp

/-- Sorting yields the empty list only from the empty list. -/
theorem sortByCreatedAtDesc_eq_nil (l : List Guest) :
    sortByCreatedAtDesc l = [] ↔ l = [] := by
  constructor
  · intro h
    cases l with
    | nil => rfl
    | cons a t =>
      have : a ∈ sortByCreatedAtDesc (a :: t) :=
        (mem_sortByCreatedAtDesc a (a :: t)).mpr (List.mem_cons_self a t)
      rw [h] at this
      cases this
  · rintro rfl
    rfl

/-- Everything the guest search returns lies in the table, is active, and
matches the query. -/
theorem mem_searchGuests (db : DB) (q : String) (b : Option Nat) (g : Guest)
    (h : g ∈ db.searchGuests q b) :
    g ∈ db.guests ∧ g.isActive = true ∧ guestMatchesQuery q g = true := by
  unfold DB.searchGuests at h
  have h1 := List.mem_of_mem_take h
  rw [mem_sortByCreatedAtDesc] at h1
  have h2 := List.mem_filter.mp h1
  refine ⟨h2.1, ?_, ?_⟩
  · have := h2.2
    simp only [Bool.and_eq_true] at this
    exact this.1.1
  · have := h2.2
    simp only [Bool.and_eq_true] at this
    exact this.1.2

/-- When the search comes back empty, no guest passes its filter. -/
theorem searchGuests_nil_no_match (db : DB) (q : String) (b : Option Nat)
    (h : db.searchGuests q b = []) (g : Guest) (hg : g ∈ db.guests)
    (hact : g.isActive = true) (hmatch : guestMatchesQuery q g = true)
    (hbr : (!jsTruthyOptNat b || g.branchId == b.getD 0) = true) : False := by
  unfold DB.searchGuests at h
  rcases List.take_eq_nil_iff.mp h with h10 | hsort
  · cases h10
  · rw [sortByCreatedAtDesc_eq_nil] at hsort
    have : g ∈ db.guests.filter (fun g =>
        g.isActive && guestMatchesQuery q g &&
        (!jsTruthyOptNat b || g.branchId == b.getD 0)) :=
      List.mem_filter.mpr ⟨hg, by simp [hact, hmatch, hbr]⟩
    rw [hsort] at this
    cases this

/-- Incrementing one guest's counter leaves the active-phone filter
untouched. -/
theorem filter_phone_map_increment (l : List Guest) (gid : Nat) (p : String) :
    ((l.map (fun g => if g.id = gid
        then { g with reservationCount := g.reservationCount + 1 } else g)).filter
      (fun g => g.isActive && g.phone == p)).length
      = (l.filter (fun g => g.isActive && g.phone == p)).length := by
  induction l with
  | nil => rfl
  | cons a t ih =>
    have hpa : (({ a with reservationCount := a.reservationCount + 1 } : Guest).isActive
        && ({ a with reservationCount := a.reservationCount + 1 } : Guest).phone == p)
        = (a.isActive && a.phone == p) := rfl
    by_cases ha : a.id = gid
    · simp only [List.map_cons, if_pos ha, List.filter_cons, hpa]
      by_cases hp : (a.isActive && a.phone == p) = true
      · simp [hp, ih]
      · simp only [Bool.not_eq_true] at hp
        simp [hp, ih]
    · simp only [List.map_cons, if_neg ha, List.filter_cons]
      by_cases hp : (a.isActive && a.phone == p) = true
      · simp [hp, ih]
      · simp only [Bool.not_eq_true] at hp
        simp [hp, ih]

/-- Incrementing the counter of the guest `gid` — present exactly once —
raises the total count by one. -/
theorem sum_counts_map_increment (l : List Guest) (gid : Nat)
    (hnd : (l.map (fun g => g.id)).Nodup)
    (hmem : gid ∈ l.map (fun g => g.id)) :
    ((l.map (fun g => if g.id = gid
        then { g with reservationCount := g.reservationCount + 1 } else g)).map
      (fun g => g.reservationCount)).sum
      = (l.map (fun g => g.reservationCount)).sum + 1 := by
  induction l with
  | nil => cases hmem
  | cons a t ih =>
    simp only [List.map_cons, List.sum_cons, List.nodup_cons] at hnd ⊢
    rcases List.mem_cons.mp hmem with ha | ht
    · have ha' : a.id = gid := ha.symm
      rw [if_pos ha']
      have hnot : ∀ g ∈ t, ¬(g.id = gid) := by
        intro g hg hgid
        apply hnd.1
        have hmm : g.id ∈ List.map (fun g => g.id) t := List.mem_map_of_mem _ hg
        rwa [hgid, ← ha'] at hmm
      have hmap : t.map (fun g => if g.id = gid
          then { g with reservationCount := g.reservationCount + 1 } else g) = t := by
        calc t.map (fun g => if g.id = gid
              then { g with reservationCount := g.reservationCount + 1 } else g)
            = t.map (fun g => g) := List.map_congr_left (fun g hg => if_neg (hnot g hg))
          _ = t := List.map_id _
      rw [hmap]
      simp [Nat.add_assoc, Nat.add_comm, Nat.add_left_comm]
    · have ha' : ¬(a.id = gid) := by
        intro hcon
        exact hnd.1 (hcon ▸ ht)
      rw [if_neg ha']
      rw [ih hnd.2 ht]
      simp [Nat.add_assoc]

/-- A constant-status room loop leaves the guests table unchanged. -/
theorem setRoomsStatus_guests {α : Type} (roomIdOf : α → Nat) (s : String)
    (l : List α) (db : DB) :
    (setRoomsStatus roomIdOf s db l).guests = db.guests := by
  rw [setRoomsStatus_shape]

/-- Inserting junction rows leaves the guests table unchanged. -/
theorem foldl_createReservationRoom_guests (rid : String) (rooms : List RoomInput)
    (db : DB) :
    (rooms.foldl (fun d rd => (d.createReservationRoom rid rd).1) db).guests
      = db.guests := by
  induction rooms generalizing db with
  | nil => rfl
  | cons a t ih =>
    rw [List.foldl_cons]
    exact ih _

/-- The guests table after the transactional create: incremented at the
referenced guest exactly when junction rows were inserted. -/
theorem createReservationTx_guests (db : DB) (r : Reservation)
    (rooms : List RoomInput) :
    (db.createReservationTx r rooms).1.guests
      = if rooms.length > 0 then
          (if r.guestId ≠ 0 then (db.incrementGuestCount r.guestId).guests
           else db.guests)
        else db.guests := by
  have h2 : (List.foldl (fun (d : DB) rd => (d.createReservationRoom r.id rd).1)
      { db with reservations := db.reservations ++ [r] } rooms).guests = db.guests := by
    rw [foldl_createReservationRoom_guests]
  unfold DB.createReservationTx
  split
  · split
    · exact congrArg (List.map (fun g => if g.id = r.guestId
        then { g with reservationCount := g.reservationCount + 1 } else g)) h2
    · exact h2
  · rfl

/-- The guests table after a full successful create. -/
theorem finishCreate_guests (db1 : DB) (user : User) (resData : ReservationInput)
    (guest : Guest) (rooms : List RoomInput) (now : Nat) :
    (finishCreate db1 user resData guest rooms now).1.guests
      = if rooms.length > 0 then
          (if guest.id ≠ 0 then (db1.incrementGuestCount guest.id).guests
           else db1.guests)
        else db1.guests := by
  show (setRoomsStatus (fun rd => rd.roomId) "reserved" _ rooms).guests = _
  rw [setRoomsStatus_guests, createReservationTx_guests]
  rfl

/-- Case analysis of guest resolution. -/
theorem resolveGuest_cases (db : DB) (gi : GuestInput) (b : Nat) :
    (jsTruthyStr gi.phone = true ∧
      ∃ g l, db.searchGuests gi.phone none = g :: l ∧ resolveGuest db gi b = (db, g)) ∨
    ((jsTruthyStr gi.phone = false ∨ db.searchGuests gi.phone none = []) ∧
      resolveGuest db gi b = db.createGuest gi b) := by
  by_cases hp : jsTruthyStr gi.phone = true
  · cases hsearch : db.searchGuests gi.phone none with
    | nil =>
      right
      refine ⟨Or.inr rfl, ?_⟩
      unfold resolveGuest
      rw [if_pos hp, hsearch]
    | cons g l =>
      left
      refine ⟨hp, g, l, rfl, ?_⟩
      unfold resolveGuest
      rw [if_pos hp, hsearch]
  · right
    refine ⟨Or.inl (by simpa using hp), ?_⟩
    unfold resolveGuest
    rw [if_neg hp]

/-- Claim C2 (amended): creation preserves at-most-one-active-guest-per-phone;
when an active guest with the payload phone exists no new guest record is
created; and the total of all guests' `reservationCount` rises by exactly one
when the reservation carries at least one room, but is unchanged when the
rooms list is empty. -/
theorem C2_guest_dedup (cp : String → String → Bool) (db : DB) (user : User)
    (body : CreateBody) (now : Nat) (db' : DB) (r : Reservation)
    (hwf : db.WF)
    (hphone : jsTruthyStr body.guest.phone = true)
    (h : postReservations cp db user body now = .ok db' r) :
    ((∀ p, activePhoneCount db p ≤ 1) → ∀ p, activePhoneCount db' p ≤ 1) ∧
    ((∃ g ∈ db.guests, g.isActive = true ∧ g.phone = body.guest.phone) →
      db'.guests.length = db.guests.length) ∧
    (body.rooms ≠ [] → totalReservationCount db' = totalReservationCount db + 1) ∧
    (body.rooms = [] → totalReservationCount db' = totalReservationCount db) := by
  obtain ⟨hwf0, hwf1, hwf2, -, -⟩ := hwf
  obtain ⟨hdb, -⟩ := postReservations_ok cp db user body now db' r h
  have hguests : db'.guests
      = if body.rooms.length > 0 then
          (if (resolveGuest db body.guest (effectiveResData user body).branchId).2.id ≠ 0 then
            ((resolveGuest db body.guest (effectiveResData user body).branchId).1.incrementGuestCount
              (resolveGuest db body.guest (effectiveResData user body).branchId).2.id).guests
           else (resolveGuest db body.guest (effectiveResData user body).branchId).1.guests)
        else (resolveGuest db body.guest (effectiveResData user body).branchId).1.guests := by
    rw [hdb, finishCreate_guests]
  rcases resolveGuest_cases db body.guest (effectiveResData user body).branchId with
    ⟨-, g, l, hsearch, hres⟩ | ⟨hor, hres⟩
  · -- the guest found by the search is reused
    rw [hres] at hguests
    dsimp only at hguests
    obtain ⟨hgmem, hgact, -⟩ := mem_searchGuests db body.guest.phone none g
      (by rw [hsearch]; exact List.mem_cons_self g l)
    have hgid : g.id ≠ 0 := Nat.pos_iff_ne_zero.mp (hwf2 g hgmem).1
    have hgin : g.id ∈ db.guests.map (fun g => g.id) := List.mem_map_of_mem _ hgmem
    rw [if_pos hgid] at hguests
    refine ⟨?_, ?_, ?_, ?_⟩
    · intro hle p
      unfold activePhoneCount at hle ⊢
      rw [hguests]
      split
      · unfold DB.incrementGuestCount
        dsimp only
        rw [filter_phone_map_increment]
        exact hle p
      · exact hle p
    · intro _
      rw [hguests]
      split
      · unfold DB.incrementGuestCount
        dsimp only
        exact List.length_map _ _
      · rfl
    · intro hne
      have hlen : body.rooms.length > 0 := List.length_pos.mpr hne
      rw [if_pos hlen] at hguests
      unfold totalReservationCount
      rw [hguests]
      unfold DB.incrementGuestCount
      dsimp only
      exact sum_counts_map_increment db.guests g.id hwf1 hgin
    · intro hnil
      have hlen : ¬(body.rooms.length > 0) := by simp [hnil]
      rw [if_neg hlen] at hguests
      unfold totalReservationCount
      rw [hguests]
  · -- no search hit: a fresh guest record is appended
    have hsearchnil : db.searchGuests body.guest.phone none = [] := by
      rcases hor with hfalse | hnil
      · rw [hphone] at hfalse
        cases hfalse
      · exact hnil
    have hnomatch : ∀ g ∈ db.guests, ¬(g.isActive = true ∧ g.phone = body.guest.phone) := by
      rintro g hg ⟨hact, hph⟩
      exact searchGuests_nil_no_match db body.guest.phone none hsearchnil g hg hact
        (guestMatchesQuery_of_phone _ _ hph) (by simp [jsTruthyOptNat])
    rw [hres] at hguests
    dsimp only [DB.createGuest] at hguests
    have hgid1 : (mkNewGuest db body.guest (effectiveResData user body).branchId).id ≠ 0 :=
      Nat.pos_iff_ne_zero.mp hwf0
    rw [if_pos hgid1] at hguests
    have hndapp : ((db.guests ++ [mkNewGuest db body.guest
        (effectiveResData user body).branchId]).map (fun g => g.id)).Nodup := by
      rw [List.map_append, List.nodup_append]
      refine ⟨hwf1, List.nodup_singleton _, ?_⟩
      intro x hx hx1
      simp only [List.map_cons, List.map_nil, List.mem_singleton] at hx1
      obtain ⟨g0, hg0, hg0x⟩ := List.mem_map.mp hx
      have hlt := (hwf2 g0 hg0).2
      rw [hg0x, hx1] at hlt
      exact lt_irrefl _ hlt
    have hinapp : (mkNewGuest db body.guest (effectiveResData user body).branchId).id
        ∈ (db.guests ++ [mkNewGuest db body.guest
            (effectiveResData user body).branchId]).map (fun g => g.id) :=
      List.mem_map_of_mem _ (List.mem_append_right _ (List.mem_singleton.mpr rfl))
    have happcounts : ((db.guests ++ [mkNewGuest db body.guest
        (effectiveResData user body).branchId]).map (fun g => g.reservationCount)).sum
        = totalReservationCount db := by
      unfold totalReservationCount
      rw [List.map_append, List.sum_append]
      simp [mkNewGuest]
    refine ⟨?_, ?_, ?_, ?_⟩
    · intro hle p
      unfold activePhoneCount at hle ⊢
      rw [hguests]
      have happ : ((db.guests ++ [mkNewGuest db body.guest
          (effectiveResData user body).branchId]).filter
            (fun g => g.isActive && g.phone == p)).length
          = (db.guests.filter (fun g => g.isActive && g.phone == p)).length
            + (if body.guest.phone = p then 1 else 0) := by
        rw [List.filter_append, List.length_append]
        congr 1
        by_cases hpq : body.guest.phone = p
        · rw [if_pos hpq]
          have : ((mkNewGuest db body.guest (effectiveResData user body).branchId).isActive
              && (mkNewGuest db body.guest (effectiveResData user body).branchId).phone == p)
              = true := by
            simp [mkNewGuest, hpq]
          simp [this]
        · rw [if_neg hpq]
          have : ((mkNewGuest db body.guest (effectiveResData user body).branchId).isActive
              && (mkNewGuest db body.guest (effectiveResData user body).branchId).phone == p)
              = false := by
            simp [mkNewGuest, hpq]
          simp [this]
      split
      · unfold DB.incrementGuestCount
        dsimp only
        rw [filter_phone_map_increment, happ]
        by_cases hpq : body.guest.phone = p
        · rw [if_pos hpq]
          have hz : (db.guests.filter (fun g => g.isActive && g.phone == p)).length = 0 := by
            rw [List.length_eq_zero]
            rw [List.filter_eq_nil]
            intro g hg hpred
            simp only [Bool.and_eq_true, beq_iff_eq] at hpred
            exact hnomatch g hg ⟨hpred.1, hpq ▸ hpred.2⟩
          omega
        · rw [if_neg hpq]
          simpa using hle p
      · rw [happ]
        by_cases hpq : body.guest.phone = p
        · rw [if_pos hpq]
          have hz : (db.guests.filter (fun g => g.isActive && g.phone == p)).length = 0 := by
            rw [List.length_eq_zero]
            rw [List.filter_eq_nil]
            intro g hg hpred
            simp only [Bool.and_eq_true, beq_iff_eq] at hpred
            exact hnomatch g hg ⟨hpred.1, hpq ▸ hpred.2⟩
          omega
        · rw [if_neg hpq]
          simpa using hle p
    · rintro ⟨g, hg, hact, hph⟩
      exact absurd ⟨hact, hph⟩ (hnomatch g hg)
    · intro hne
      have hlen : body.rooms.length > 0 := List.length_pos.mpr hne
      rw [if_pos hlen] at hguests
      unfold totalReservationCount
      rw [hguests]
      unfold DB.incrementGuestCount
      dsimp only
      rw [sum_counts_map_increment _ _ hndapp hinapp, happcounts]
      rfl
    · intro hnil
      have hlen : ¬(body.rooms.length > 0) := by simp [hnil]
      rw [if_neg hlen] at hguests
      unfold totalReservationCount
      rw [hguests]
      exact happcounts

/-- Witness for C2: creating against the store holding the active guest Jane
(phone 555-0100) with one room reuses her and raises the count total by one. -/
theorem C2_witness :
    dbWithJane.WF ∧
    jsTruthyStr bodyScenario.guest.phone = true ∧
    postReservations cpTrue dbWithJane adminUser bodyScenario nowScenario
      = .ok dbAfterJane resAfterJane ∧
    (((∀ p, activePhoneCount dbWithJane p ≤ 1) →
        ∀ p, activePhoneCount dbAfterJane p ≤ 1) ∧
      ((∃ g ∈ dbWithJane.guests, g.isActive = true ∧ g.phone = bodyScenario.guest.phone) →
        dbAfterJane.guests.length = dbWithJane.guests.length) ∧
      (bodyScenario.rooms ≠ [] →
        totalReservationCount dbAfterJane = totalReservationCount dbWithJane + 1) ∧
      (bodyScenario.rooms = [] →
        totalReservationCount dbAfterJane = totalReservationCount dbWithJane)) :=
  ⟨by decide, by decide, by with_unfolding_all rfl,
    C2_guest_dedup cpTrue dbWithJane adminUser bodyScenario nowScenario dbAfterJane
      resAfterJane (by decide) (by decide) (by with_unfolding_all rfl)⟩

/-- Claim C10 (amended): the guest search returns only active guests; a
deactivated guest is therefore never reused as the reservation's guest; and
when no active guest matches the phone query at all, a fresh guest record is
appended.  (When a different active guest matches the query — e.g. by
substring on another field — that guest is reused and no record is created.) -/
theorem C10_search_active_only :
    (∀ db q b g, g ∈ DB.searchGuests db q b → g.isActive = true) ∧
    (∀ cp db user body now db' r, DB.WF db →
      jsTruthyStr body.guest.phone = true →
      postReservations cp db user body now = .ok db' r →
      (∀ g ∈ db.guests, g.phone = body.guest.phone → g.isActive = false →
        r.guestId ≠ g.id) ∧
      (db.searchGuests body.guest.phone none = [] →
        db'.guests.length = db.guests.length + 1)) := by
  constructor
  · intro db q b g hg
    exact (mem_searchGuests db q b g hg).2.1
  · intro cp db user body now db' r hwf hphone h
    obtain ⟨hwf0, hwf1, hwf2, -, -⟩ := hwf
    obtain ⟨hdb, hr⟩ := postReservations_ok cp db user body now db' r h
    have hrg : r.guestId
        = (resolveGuest db body.guest (effectiveResData user body).branchId).2.id := by
      rw [hr, finishCreate_snd]
    have hguests : db'.guests
        = if body.rooms.length > 0 then
            (if (resolveGuest db body.guest (effectiveResData user body).branchId).2.id ≠ 0 then
              ((resolveGuest db body.guest (effectiveResData user body).branchId).1.incrementGuestCount
                (resolveGuest db body.guest (effectiveResData user body).branchId).2.id).guests
             else (resolveGuest db body.guest (effectiveResData user body).branchId).1.guests)
          else (resolveGuest db body.guest (effectiveResData user body).branchId).1.guests := by
      rw [hdb, finishCreate_guests]
    rcases resolveGuest_cases db body.guest (effectiveResData user body).branchId with
      ⟨-, g0, l, hsearch, hres⟩ | ⟨hor, hres⟩
    · rw [hres] at hrg hguests
      dsimp only at hrg hguests
      obtain ⟨hg0mem, hg0act, -⟩ := mem_searchGuests db body.guest.phone none g0
        (by rw [hsearch]; exact List.mem_cons_self g0 l)
      constructor
      · intro g hg hph hinact heq
        rw [hrg] at heq
        have hgg : g0 = g := List.inj_on_of_nodup_map hwf1 hg0mem hg heq
        rw [hgg] at hg0act
        rw [hg0act] at hinact
        cases hinact
      · intro hnil
        rw [hsearch] at hnil
        cases hnil
    · have hrg2 : r.guestId = db.nextGuestId := by
        rw [hrg, hres]
        rfl
      constructor
      · intro g hg hph hinact heq
        have hlt := (hwf2 g hg).2
        rw [hrg2] at heq
        omega
      · intro _
        rw [hres] at hguests
        dsimp only [DB.createGuest] at hguests
        rw [hguests]
        split
        · split
          · unfold DB.incrementGuestCount
            dsimp only
            rw [List.length_map, List.length_append]
            rfl
          · rw [List.length_append]
            rfl
        · rw [List.length_append]
          rfl

/-- Witness for C10: the deactivated-owner store; guest 2 (active, matching
by substring) is reused. -/
theorem C10_witness :
    dbDeactivated.WF ∧
    jsTruthyStr bodyScenario.guest.phone = true ∧
    postReservations cpTrue dbDeactivated adminUser bodyScenario nowScenario
      = .ok ((postReservations cpTrue dbDeactivated adminUser bodyScenario
          nowScenario).dbOut?.getD dbEmpty)
        ((postReservations cpTrue dbDeactivated adminUser bodyScenario
          nowScenario).value?.getD resCheckedOut) ∧
    (∀ g ∈ dbDeactivated.guests, g.phone = bodyScenario.guest.phone →
      g.isActive = false →
      ((postReservations cpTrue dbDeactivated adminUser bodyScenario
        nowScenario).value?.getD resCheckedOut).guestId ≠ g.id) :=
  ⟨by decide, by decide, by with_unfolding_all rfl,
    (C10_search_active_only.2 cpTrue dbDeactivated adminUser bodyScenario nowScenario
      ((postReservations cpTrue dbDeactivated adminUser bodyScenario
        nowScenario).dbOut?.getD dbEmpty)
      ((postReservations cpTrue dbDeactivated adminUser bodyScenario
        nowScenario).value?.getD resCheckedOut)
      (by decide) (by decide) (by with_unfolding_all rfl)).1⟩

/-! ### Room-reconciliation lemmas (claim C3) -/

/-- The removal phase in closed form: it drops exactly the junction rows
whose ids are listed, sets each listed room to `available`, and leaves every
other table and sequence untouched. -/
theorem removePhase_shape (toRemove : List ReservationRoom) (db : DB) :
    removalPhase db toRemove
      = { db with
          reservationRooms := db.reservationRooms.filter
            (fun rr => !(toRemove.map (fun x => x.id)).contains rr.id),
          rooms := db.rooms.map (fun room =>
            if toRemove.any (fun x => room.id == x.roomId)
            then { room with status := "available" } else room) } := by
  unfold removalPhase
  induction toRemove generalizing db with
  | nil =>
    simp only [List.foldl_nil, List.map_nil, List.any_nil]
    have h1 : db.reservationRooms.filter (fun rr => !(List.contains [] rr.id))
        = db.reservationRooms := by
      simp
    have h2 : db.rooms.map (fun room => if false = true
        then { room with status := "available" } else room) = db.rooms := by
      simp
    cases db
    simp_all
  | cons a t ih =>
    rw [List.foldl_cons, ih]
    simp only [DB.deleteReservationRoom, DB.updateRoomStatus]
    refine congrArg₂ (fun x y => { db with reservationRooms := x, rooms := y }) ?_ ?_
    · rw [List.filter_filter]
      apply List.filter_congr
      intro rr _
      by_cases hc : rr.id = a.id
      · simp [hc]
      · by_cases ht : (t.map (fun x => x.id)).contains rr.id = true <;>
          simp [hc, ht]
    · rw [List.map_map]
      apply List.map_congr_left
      intro room _
      by_cases hc : room.id = a.roomId <;>
        by_cases ht : (t.any (fun x => room.id == x.roomId)) = true <;>
        simp [Function.comp, hc, ht]

/-- Fold a preservation argument over a loop, using membership of the loop
element. -/
theorem foldl_inv {α : Type} (step : DB → α → DB) (P : DB → Prop) (l : List α)
    (db : DB) (h0 : P db) (hstep : ∀ d a, a ∈ l → P d → P (step d a)) :
    P (l.foldl step db) := by
  induction l generalizing db with
  | nil => exact h0
  | cons a t ih =>
    rw [List.foldl_cons]
    exact ih (step db a) (hstep db a (List.mem_cons_self a t) h0)
      (fun d b hb hd => hstep d b (List.mem_cons_of_mem a hb) hd)

/-- One reconciliation step never lowers the junction-row id sequence. -/
theorem reconcileStep_next_mono (rid : String) (d : DB) (rd : RoomInput) :
    d.nextReservationRoomId ≤ (reconcileStep rid d rd).nextReservationRoomId := by
  unfold reconcileStep
  split
  · exact le_rfl
  · exact Nat.le_succ _

/-- A junction-row id below the sequence and absent from the table stays
absent through a reconciliation step. -/
theorem reconcileStep_absent (rid : String) (t : Nat) (d : DB) (rd : RoomInput)
    (habs : ∀ rr ∈ d.reservationRooms, rr.id ≠ t)
    (hlt : t < d.nextReservationRoomId) :
    (∀ rr ∈ (reconcileStep rid d rd).reservationRooms, rr.id ≠ t) ∧
      t < (reconcileStep rid d rd).nextReservationRoomId := by
  unfold reconcileStep
  split
  · refine ⟨?_, hlt⟩
    intro rr hrr
    obtain ⟨rr0, h0, himg⟩ := List.mem_map.mp hrr
    by_cases hc : rr0.id = rd.id.getD 0
    · rw [if_pos hc] at himg
      subst himg
      show rd.id.getD 0 ≠ t
      rw [← hc]
      exact habs rr0 h0
    · rw [if_neg hc] at himg
      subst himg
      exact habs rr0 h0
  · refine ⟨?_, ?_⟩
    · intro rr hrr
      rcases List.mem_append.mp (show rr ∈ d.reservationRooms
          ++ [mkReservationRoomRow rid rd d.nextReservationRoomId] from hrr) with hmem | hone
      · exact habs rr hmem
      · rw [List.mem_singleton.mp hone]
        show d.nextReservationRoomId ≠ t
        omega
    · show t < d.nextReservationRoomId + 1
      omega

/-- Some row with a given id keeps existing through a reconciliation step,
with the id staying below the sequence. -/
theorem reconcileStep_exists_id (rid : String) (t : Nat) (d : DB) (rd : RoomInput)
    (hex : ∃ rr ∈ d.reservationRooms, rr.id = t)
    (hlt : t < d.nextReservationRoomId) :
    (∃ rr ∈ (reconcileStep rid d rd).reservationRooms, rr.id = t) ∧
      t < (reconcileStep rid d rd).nextReservationRoomId := by
  obtain ⟨rr0, h0, hid0⟩ := hex
  unfold reconcileStep
  split
  · refine ⟨?_, hlt⟩
    by_cases hc : rr0.id = rd.id.getD 0
    · refine ⟨mkReservationRoomRow rid rd (rd.id.getD 0), ?_, ?_⟩
      · have himg := List.mem_map_of_mem (fun rr =>
          if rr.id = rd.id.getD 0 then mkReservationRoomRow rid rd (rd.id.getD 0) else rr) h0
        have hred : (fun rr => if rr.id = rd.id.getD 0
            then mkReservationRoomRow rid rd (rd.id.getD 0) else rr) rr0
            = mkReservationRoomRow rid rd (rd.id.getD 0) := by
          dsimp only
          rw [if_pos hc]
        rwa [hred] at himg
      · show rd.id.getD 0 = t
        rw [← hc]
        exact hid0
    · refine ⟨rr0, ?_, hid0⟩
      have himg := List.mem_map_of_mem (fun rr =>
        if rr.id = rd.id.getD 0 then mkReservationRoomRow rid rd (rd.id.getD 0) else rr) h0
      have hred : (fun rr => if rr.id = rd.id.getD 0
          then mkReservationRoomRow rid rd (rd.id.getD 0) else rr) rr0 = rr0 := by
        dsimp only
        rw [if_neg hc]
      rwa [hred] at himg
  · refine ⟨⟨rr0, ?_, hid0⟩, ?_⟩
    · exact show rr0 ∈ d.reservationRooms
        ++ [mkReservationRoomRow rid rd d.nextReservationRoomId] from
        List.mem_append_left _ h0
    · show t < d.nextReservationRoomId + 1
      omega

/-- When the step's incoming id differs from `t`, the facts «every `t`-row
equals `row`» and «a `t`-row exists» survive the step. -/
theorem reconcileStep_eqrow (rid : String) (t : Nat) (row : ReservationRoom)
    (d : DB) (rd : RoomInput)
    (hne : jsTruthyOptNat rd.id = true → rd.id.getD 0 ≠ t)
    (hall : ∀ rr ∈ d.reservationRooms, rr.id = t → rr = row)
    (hex : ∃ rr ∈ d.reservationRooms, rr.id = t)
    (hlt : t < d.nextReservationRoomId) :
    (∀ rr ∈ (reconcileStep rid d rd).reservationRooms, rr.id = t → rr = row) ∧
    (∃ rr ∈ (reconcileStep rid d rd).reservationRooms, rr.id = t) ∧
      t < (reconcileStep rid d rd).nextReservationRoomId := by
  have hkeep := reconcileStep_exists_id rid t d rd hex hlt
  refine ⟨?_, hkeep.1, hkeep.2⟩
  unfold reconcileStep at hkeep ⊢
  split
  · next htr =>
    have hu : rd.id.getD 0 ≠ t := hne htr
    intro rr hrr hid
    obtain ⟨rr0, h0, himg⟩ := List.mem_map.mp hrr
    by_cases hc : rr0.id = rd.id.getD 0
    · rw [if_pos hc] at himg
      subst himg
      exact absurd hid hu
    · rw [if_neg hc] at himg
      subst himg
      exact hall rr0 h0 hid
  · intro rr hrr hid
    rcases List.mem_append.mp (show rr ∈ d.reservationRooms
        ++ [mkReservationRoomRow rid rd d.nextReservationRoomId] from hrr) with hmem | hone
    · exact hall rr hmem hid
    · rw [List.mem_singleton.mp hone] at hid
      exact absurd hid (by show ¬d.nextReservationRoomId = t; omega)

/-- An inserted row survives the rest of the loop when every later
incoming id lies below the bound `B ≤ i`. -/
theorem reconcileStep_exrow (rid : String) (rd0 : RoomInput) (B i : Nat)
    (d : DB) (rd : RoomInput)
    (hbound : jsTruthyOptNat rd.id = true → rd.id.getD 0 < B)
    (hi : B ≤ i)
    (hex : ∃ rr ∈ d.reservationRooms, rr = mkReservationRoomRow rid rd0 i) :
    ∃ rr ∈ (reconcileStep rid d rd).reservationRooms,
      rr = mkReservationRoomRow rid rd0 i := by
  obtain ⟨rr0, h0, hr0⟩ := hex
  unfold reconcileStep
  split
  · next htr =>
    have hne : rr0.id ≠ rd.id.getD 0 := by
      rw [hr0]
      show i ≠ rd.id.getD 0
      have := hbound htr
      omega
    refine ⟨rr0, ?_, hr0⟩
    have himg := List.mem_map_of_mem (fun rr =>
      if rr.id = rd.id.getD 0 then mkReservationRoomRow rid rd (rd.id.getD 0) else rr) h0
    have hred : (fun rr => if rr.id = rd.id.getD 0
        then mkReservationRoomRow rid rd (rd.id.getD 0) else rr) rr0 = rr0 := by
      dsimp only
      rw [if_neg hne]
    rwa [hred] at himg
  · exact ⟨rr0, show rr0 ∈ d.reservationRooms
      ++ [mkReservationRoomRow rid rd d.nextReservationRoomId] from
      List.mem_append_left _ h0, hr0⟩

/-- Every room the status update names ends with that status. -/
theorem updateRoomStatus_status (d : DB) (X : Nat) (s : String) :
    ∀ room ∈ (d.updateRoomStatus X s).rooms, room.id = X → room.status = s := by
  intro room hroom hid
  obtain ⟨room0, h0, himg⟩ := List.mem_map.mp hroom
  by_cases hc : room0.id = X
  · rw [if_pos hc] at himg
    subst himg
    rfl
  · rw [if_neg hc] at himg
    subst himg
    exact absurd hid hc

/-- «Every room with id X is reserved» survives a reconciliation step. -/
theorem reconcileStep_reserved (rid : String) (X : Nat) (d : DB) (rd : RoomInput)
    (hst : ∀ room ∈ d.rooms, room.id = X → room.status = "reserved") :
    ∀ room ∈ (reconcileStep rid d rd).rooms, room.id = X →
      room.status = "reserved" := by
  unfold reconcileStep
  split
  · exact hst
  · intro room hroom hid
    obtain ⟨room0, h0, himg⟩ := List.mem_map.mp hroom
    by_cases hc : room0.id = rd.roomId
    · rw [if_pos hc] at himg
      subst himg
      rfl
    · rw [if_neg hc] at himg
      subst himg
      exact hst room0 h0 hid

/-- «Every room with id Y is available» survives a reconciliation step whose
insertions do not name room Y. -/
theorem reconcileStep_availableKeep (rid : String) (Y : Nat) (d : DB)
    (rd : RoomInput)
    (hnotins : jsTruthyOptNat rd.id = false → rd.roomId ≠ Y)
    (hst : ∀ room ∈ d.rooms, room.id = Y → room.status = "available") :
    ∀ room ∈ (reconcileStep rid d rd).rooms, room.id = Y →
      room.status = "available" := by
  unfold reconcileStep
  split
  · exact hst
  · next htr =>
    have hne : rd.roomId ≠ Y := hnotins (by simpa using htr)
    intro room hroom hid
    obtain ⟨room0, h0, himg⟩ := List.mem_map.mp hroom
    by_cases hc : room0.id = rd.roomId
    · rw [if_pos hc] at himg
      subst himg
      have : room0.id = Y := hid
      rw [hc] at this
      exact absurd this hne
    · rw [if_neg hc] at himg
      subst himg
      exact hst room0 h0 hid

/-- Applying the in-place update establishes «every row with that id equals
the payload row» while keeping such a row present. -/
theorem updateRR_establish (rid : String) (rd : RoomInput) (t : Nat) (d : DB)
    (ht : t = rd.id.getD 0)
    (hex : ∃ rr ∈ d.reservationRooms, rr.id = t) :
    (∀ rr ∈ (d.updateReservationRoom (rd.id.getD 0) rid rd).reservationRooms,
      rr.id = t → rr = mkReservationRoomRow rid rd t) ∧
    (∃ rr ∈ (d.updateReservationRoom (rd.id.getD 0) rid rd).reservationRooms,
      rr.id = t) := by
  subst ht
  constructor
  · intro rr hrr hid
    obtain ⟨rr0, h0, himg⟩ := List.mem_map.mp hrr
    by_cases hc : rr0.id = rd.id.getD 0
    · rw [if_pos hc] at himg
      subst himg
      rfl
    · rw [if_neg hc] at himg
      subst himg
      exact absurd hid hc
  · obtain ⟨rr0, h0, hid0⟩ := hex
    refine ⟨mkReservationRoomRow rid rd (rd.id.getD 0), ?_, rfl⟩
    have himg := List.mem_map_of_mem (fun rr =>
      if rr.id = rd.id.getD 0 then mkReservationRoomRow rid rd (rd.id.getD 0) else rr) h0
    have hred : (fun rr => if rr.id = rd.id.getD 0
        then mkReservationRoomRow rid rd (rd.id.getD 0) else rr) rr0
        = mkReservationRoomRow rid rd (rd.id.getD 0) := by
      dsimp only
      rw [if_pos hid0]
    rwa [hred] at himg

/-- After reconciliation, an existing junction row whose id is absent from
the payload is gone, and (when no inserted entry names its room) its room is
`available`. -/
theorem reconcileRooms_removed (base : DB) (rid : String) (rs : List RoomInput)
    (hwfn : ∀ rr ∈ base.reservationRooms, rr.id < base.nextReservationRoomId)
    (rr : ReservationRoom) (hrr : rr ∈ base.getReservationRooms rid)
    (hnotin : rr.id ∉ incomingRoomIds rs) :
    (∀ rr' ∈ (reconcileRooms base rid rs).reservationRooms, rr'.id ≠ rr.id) ∧
    (rr.roomId ∉ (rs.filter (fun rd => !jsTruthyOptNat rd.id)).map
        (fun rd => rd.roomId) →
      ∀ room ∈ (reconcileRooms base rid rs).rooms, room.id = rr.roomId →
        room.status = "available") := by
  have hrrbase : rr ∈ base.reservationRooms := (List.mem_filter.mp hrr).1
  have htlt : rr.id < base.nextReservationRoomId := hwfn rr hrrbase
  have hinremove : rr ∈ roomsToRemove base rid rs := by
    refine List.mem_filter.mpr ⟨hrr, ?_⟩
    simpa using hnotin
  have hnext1 : (removalPhase base (roomsToRemove base rid rs)).nextReservationRoomId
      = base.nextReservationRoomId := by
    rw [removePhase_shape]
  have habs1 : ∀ rr' ∈ (removalPhase base (roomsToRemove base rid rs)).reservationRooms,
      rr'.id ≠ rr.id := by
    rw [removePhase_shape]
    intro rr' h' heq
    have h2 := (List.mem_filter.mp h').2
    have hcon : (((roomsToRemove base rid rs).map (fun x => x.id)).contains rr'.id)
        = true := by
      apply List.elem_iff.mpr
      rw [heq]
      exact List.mem_map_of_mem _ hinremove
    rw [hcon] at h2
    simp at h2
  unfold reconcileRooms
  constructor
  · exact (foldl_inv (reconcileStep rid)
      (fun d => (∀ rr' ∈ d.reservationRooms, rr'.id ≠ rr.id) ∧
        rr.id < d.nextReservationRoomId) rs _
      ⟨habs1, by rw [hnext1]; exact htlt⟩
      (fun d a _ hd => reconcileStep_absent rid rr.id d a hd.1 hd.2)).1
  · intro hroomnot
    have hav1 : ∀ room ∈ (removalPhase base (roomsToRemove base rid rs)).rooms,
        room.id = rr.roomId → room.status = "available" := by
      rw [removePhase_shape]
      intro room hroom hid
      obtain ⟨room0, h0, himg⟩ := List.mem_map.mp hroom
      by_cases hc : ((roomsToRemove base rid rs).any
          (fun x => room0.id == x.roomId)) = true
      · rw [if_pos hc] at himg
        subst himg
        rfl
      · rw [if_neg hc] at himg
        subst himg
        exact absurd (List.any_eq_true.mpr ⟨rr, hinremove, by simp [hid]⟩) hc
    exact foldl_inv (reconcileStep rid)
      (fun d => ∀ room ∈ d.rooms, room.id = rr.roomId → room.status = "available") rs _
      hav1
      (fun d a ha hd => reconcileStep_availableKeep rid rr.roomId d a
        (fun hfalse heq => hroomnot
          (List.mem_map.mpr ⟨a, List.mem_filter.mpr ⟨ha, by simp [hfalse]⟩, heq⟩)) hd)

/-- After reconciliation, each payload entry carrying an id owns exactly the
in-place-updated row: a row with that id exists, and every row with that id
equals the payload row. -/
theorem reconcileRooms_updated (base : DB) (rid : String) (rs : List RoomInput)
    (hwfn : ∀ rr ∈ base.reservationRooms, rr.id < base.nextReservationRoomId)
    (hids : ∀ rd ∈ rs, jsTruthyOptNat rd.id = true →
      rd.id.getD 0 ∈ (base.getReservationRooms rid).map (fun x => x.id))
    (hnodupIn : (incomingRoomIds rs).Nodup)
    (rd : RoomInput) (hrd : rd ∈ rs) (htr : jsTruthyOptNat rd.id = true) :
    (∃ rr' ∈ (reconcileRooms base rid rs).reservationRooms,
      rr'.id = rd.id.getD 0) ∧
    (∀ rr' ∈ (reconcileRooms base rid rs).reservationRooms,
      rr'.id = rd.id.getD 0 → rr' = mkReservationRoomRow rid rd (rd.id.getD 0)) := by
  obtain ⟨rr0, hrr0cur, hid0⟩ := List.mem_map.mp (hids rd hrd htr)
  have htin : rd.id.getD 0 ∈ incomingRoomIds rs :=
    List.mem_map.mpr ⟨rd, List.mem_filter.mpr ⟨hrd, htr⟩, rfl⟩
  have htlt : rd.id.getD 0 < base.nextReservationRoomId := by
    rw [← hid0]
    exact hwfn rr0 (List.mem_filter.mp hrr0cur).1
  have hsurv : ∃ rr' ∈ (removalPhase base (roomsToRemove base rid rs)).reservationRooms,
      rr'.id = rd.id.getD 0 := by
    rw [removePhase_shape]
    refine ⟨rr0, List.mem_filter.mpr ⟨(List.mem_filter.mp hrr0cur).1, ?_⟩, hid0⟩
    have hfalse : ((roomsToRemove base rid rs).map (fun x => x.id)).contains rr0.id
        = false := by
      rw [← Bool.not_eq_true]
      intro hcon
      obtain ⟨x, hx, hxid⟩ := List.mem_map.mp (List.elem_iff.mp hcon)
      have hxcond := (List.mem_filter.mp hx).2
      have hmem : x.id ∈ incomingRoomIds rs := by
        rw [hxid, hid0]
        exact htin
      have hc2 : (incomingRoomIds rs).contains x.id = true := List.elem_iff.mpr hmem
      rw [hc2] at hxcond
      simp at hxcond
    rw [hfalse]
    rfl
  have hnext1 : (removalPhase base (roomsToRemove base rid rs)).nextReservationRoomId
      = base.nextReservationRoomId := by
    rw [removePhase_shape]
  obtain ⟨l1, l2, rfl⟩ := List.append_of_mem hrd
  have hnotl2 : ∀ rd' ∈ l2, jsTruthyOptNat rd'.id = true →
      rd'.id.getD 0 ≠ rd.id.getD 0 := by
    intro rd' hrd' htr' heq
    have hsplitinc : incomingRoomIds (l1 ++ rd :: l2)
        = incomingRoomIds l1 ++ rd.id.getD 0 :: incomingRoomIds l2 := by
      unfold incomingRoomIds
      rw [List.filter_append, List.map_append, List.filter_cons]
      simp [htr]
    rw [hsplitinc] at hnodupIn
    have h2 := hnodupIn.of_append_right
    have h3 := (List.nodup_cons.mp h2).1
    apply h3
    rw [← heq]
    exact List.mem_map.mpr ⟨rd', List.mem_filter.mpr ⟨hrd', htr'⟩, rfl⟩
  have hfold : reconcileRooms base rid (l1 ++ rd :: l2)
      = l2.foldl (reconcileStep rid)
          (reconcileStep rid (l1.foldl (reconcileStep rid)
            (removalPhase base (roomsToRemove base rid (l1 ++ rd :: l2)))) rd) := by
    unfold reconcileRooms
    rw [List.foldl_append, List.foldl_cons]
  have hmid := foldl_inv (reconcileStep rid)
    (fun d => (∃ rr' ∈ d.reservationRooms, rr'.id = rd.id.getD 0) ∧
      rd.id.getD 0 < d.nextReservationRoomId) l1
    (removalPhase base (roomsToRemove base rid (l1 ++ rd :: l2)))
    ⟨hsurv, by rw [hnext1]; exact htlt⟩
    (fun d a _ hd => reconcileStep_exists_id rid (rd.id.getD 0) d a hd.1 hd.2)
  have hstep : reconcileStep rid (l1.foldl (reconcileStep rid)
        (removalPhase base (roomsToRemove base rid (l1 ++ rd :: l2)))) rd
      = (l1.foldl (reconcileStep rid)
          (removalPhase base (roomsToRemove base rid (l1 ++ rd :: l2)))).updateReservationRoom
            (rd.id.getD 0) rid rd := by
    unfold reconcileStep
    rw [if_pos htr]
  have hest := updateRR_establish rid rd (rd.id.getD 0)
    (l1.foldl (reconcileStep rid)
      (removalPhase base (roomsToRemove base rid (l1 ++ rd :: l2)))) rfl hmid.1
  have hfin := foldl_inv (reconcileStep rid)
    (fun d => (∀ rr' ∈ d.reservationRooms, rr'.id = rd.id.getD 0 →
        rr' = mkReservationRoomRow rid rd (rd.id.getD 0)) ∧
      (∃ rr' ∈ d.reservationRooms, rr'.id = rd.id.getD 0) ∧
      rd.id.getD 0 < d.nextReservationRoomId) l2
    (reconcileStep rid (l1.foldl (reconcileStep rid)
      (removalPhase base (roomsToRemove base rid (l1 ++ rd :: l2)))) rd)
    (by
      rw [hstep]
      exact ⟨hest.1, hest.2, hmid.2⟩)
    (fun d a ha hd =>
      reconcileStep_eqrow rid (rd.id.getD 0)
        (mkReservationRoomRow rid rd (rd.id.getD 0)) d a
        (fun htr' => hnotl2 a ha htr') hd.1 hd.2.1 hd.2.2)
  rw [hfold]
  exact ⟨hfin.2.1, hfin.1⟩

/-- After reconciliation, each payload entry without an id has produced a
fresh junction row, and its room is `reserved`. -/
theorem reconcileRooms_inserted (base : DB) (rid : String) (rs : List RoomInput)
    (hwfn : ∀ rr ∈ base.reservationRooms, rr.id < base.nextReservationRoomId)
    (hids : ∀ rd ∈ rs, jsTruthyOptNat rd.id = true →
      rd.id.getD 0 ∈ (base.getReservationRooms rid).map (fun x => x.id))
    (rd : RoomInput) (hrd : rd ∈ rs) (hfalse : jsTruthyOptNat rd.id = false) :
    (∃ rr' ∈ (reconcileRooms base rid rs).reservationRooms, ∃ i,
      base.nextReservationRoomId ≤ i ∧ rr' = mkReservationRoomRow rid rd i) ∧
    (∀ room ∈ (reconcileRooms base rid rs).rooms, room.id = rd.roomId →
      room.status = "reserved") := by
  have hbound : ∀ rd' ∈ rs, jsTruthyOptNat rd'.id = true →
      rd'.id.getD 0 < base.nextReservationRoomId := by
    intro rd' h' ht'
    obtain ⟨x, hx, hxid⟩ := List.mem_map.mp (hids rd' h' ht')
    rw [← hxid]
    exact hwfn x (List.mem_filter.mp hx).1
  have hnext1 : (removalPhase base (roomsToRemove base rid rs)).nextReservationRoomId
      = base.nextReservationRoomId := by
    rw [removePhase_shape]
  obtain ⟨l1, l2, rfl⟩ := List.append_of_mem hrd
  have hfold : reconcileRooms base rid (l1 ++ rd :: l2)
      = l2.foldl (reconcileStep rid)
          (reconcileStep rid (l1.foldl (reconcileStep rid)
            (removalPhase base (roomsToRemove base rid (l1 ++ rd :: l2)))) rd) := by
    unfold reconcileRooms
    rw [List.foldl_append, List.foldl_cons]
  have hmid := foldl_inv (reconcileStep rid)
    (fun d => base.nextReservationRoomId ≤ d.nextReservationRoomId) l1
    (removalPhase base (roomsToRemove base rid (l1 ++ rd :: l2)))
    (by show base.nextReservationRoomId ≤ (removalPhase base
          (roomsToRemove base rid (l1 ++ rd :: l2))).nextReservationRoomId
        rw [hnext1])
    (fun d a _ hd => le_trans hd (reconcileStep_next_mono rid d a))
  have hstep : reconcileStep rid (l1.foldl (reconcileStep rid)
        (removalPhase base (roomsToRemove base rid (l1 ++ rd :: l2)))) rd
      = ((l1.foldl (reconcileStep rid)
          (removalPhase base (roomsToRemove base rid
            (l1 ++ rd :: l2)))).createReservationRoom rid rd).1.updateRoomStatus
          rd.roomId "reserved" := by
    unfold reconcileStep
    rw [if_neg (by simp [hfalse])]
  rw [hfold, hstep]
  constructor
  · have hstart : ∃ rr' ∈ (((l1.foldl (reconcileStep rid)
        (removalPhase base (roomsToRemove base rid
          (l1 ++ rd :: l2)))).createReservationRoom rid rd).1.updateRoomStatus
        rd.roomId "reserved").reservationRooms,
        rr' = mkReservationRoomRow rid rd
          (l1.foldl (reconcileStep rid)
            (removalPhase base (roomsToRemove base rid
              (l1 ++ rd :: l2)))).nextReservationRoomId := by
      refine ⟨mkReservationRoomRow rid rd
        (l1.foldl (reconcileStep rid)
          (removalPhase base (roomsToRemove base rid
            (l1 ++ rd :: l2)))).nextReservationRoomId, ?_, rfl⟩
      exact List.mem_append_right _ (List.mem_singleton.mpr rfl)
    have hfin := foldl_inv (reconcileStep rid)
      (fun d => ∃ rr' ∈ d.reservationRooms,
        rr' = mkReservationRoomRow rid rd
          (l1.foldl (reconcileStep rid)
            (removalPhase base (roomsToRemove base rid
              (l1 ++ rd :: l2)))).nextReservationRoomId) l2
      _ hstart
      (fun d a ha hd =>
        reconcileStep_exrow rid rd base.nextReservationRoomId
          (l1.foldl (reconcileStep rid)
            (removalPhase base (roomsToRemove base rid
              (l1 ++ rd :: l2)))).nextReservationRoomId d a
          (fun ht' => hbound a (List.mem_append_right _ (List.mem_cons_of_mem rd ha)) ht')
          hmid hd)
    obtain ⟨rr', hmem', heq'⟩ := hfin
    exact ⟨rr', hmem',
      (l1.foldl (reconcileStep rid)
        (removalPhase base (roomsToRemove base rid
          (l1 ++ rd :: l2)))).nextReservationRoomId, hmid, heq'⟩
  · have hstart : ∀ room ∈ (((l1.foldl (reconcileStep rid)
        (removalPhase base (roomsToRemove base rid
          (l1 ++ rd :: l2)))).createReservationRoom rid rd).1.updateRoomStatus
        rd.roomId "reserved").rooms, room.id = rd.roomId →
        room.status = "reserved" :=
      updateRoomStatus_status _ rd.roomId "reserved"
    exact foldl_inv (reconcileStep rid)
      (fun d => ∀ room ∈ d.rooms, room.id = rd.roomId → room.status = "reserved") l2
      _ hstart
      (fun d a _ hd => reconcileStep_reserved rid rd.roomId d a hd)

/-- The guest/reservation sub-updates of the comprehensive branch leave the
junction rows, the rooms and the id sequence untouched. -/
theorem comprehensiveUpdate_components (db : DB) (existing : Reservation)
    (rid : String) (body : PatchBody) (rs : List RoomInput)
    (hrooms : body.rooms = some rs) :
    ∃ db2, comprehensiveUpdate db existing rid body = reconcileRooms db2 rid rs ∧
      db2.reservationRooms = db.reservationRooms ∧
      db2.rooms = db.rooms ∧
      db2.nextReservationRoomId = db.nextReservationRoomId := by
  unfold comprehensiveUpdate
  rw [hrooms]
  refine ⟨_, rfl, ?_, ?_, ?_⟩ <;>
    (cases body.guest <;> cases body.reservation <;> dsimp only <;>
      first
      | rfl
      | (split <;> rfl))

/-- Claim C3: a comprehensive PATCH with a rooms array reconciles the
reservation's junction rows — existing rows absent from the payload are
removed and their rooms revert to `available` (when no inserted entry
re-targets the room), id-carrying entries overwrite the row in place, and
id-less entries insert a fresh row and set their room to `reserved`;
removals run before the update/insert loop. -/
theorem C3_room_reconciliation (cp : String → String → Bool) (db : DB)
    (user : User) (rid : String) (body : PatchBody) (db' : DB)
    (rs : List RoomInput)
    (hrooms : body.rooms = some rs)
    (hwfn : ∀ rr ∈ db.reservationRooms, rr.id < db.nextReservationRoomId)
    (hids : ∀ rd ∈ rs, jsTruthyOptNat rd.id = true →
      rd.id.getD 0 ∈ (db.getReservationRooms rid).map (fun x => x.id))
    (hnodupIn : (incomingRoomIds rs).Nodup)
    (h : patchReservation cp db user rid body = .ok db' ()) :
    (∀ rr ∈ db.getReservationRooms rid, rr.id ∉ incomingRoomIds rs →
      (∀ rr' ∈ db'.reservationRooms, rr'.id ≠ rr.id) ∧
      (rr.roomId ∉ (rs.filter (fun rd => !jsTruthyOptNat rd.id)).map
          (fun rd => rd.roomId) →
        ∀ room ∈ db'.rooms, room.id = rr.roomId → room.status = "available")) ∧
    (∀ rd ∈ rs, jsTruthyOptNat rd.id = true →
      (∃ rr' ∈ db'.reservationRooms, rr'.id = rd.id.getD 0) ∧
      (∀ rr' ∈ db'.reservationRooms, rr'.id = rd.id.getD 0 →
        rr' = mkReservationRoomRow rid rd (rd.id.getD 0))) ∧
    (∀ rd ∈ rs, jsTruthyOptNat rd.id = false →
      (∃ rr' ∈ db'.reservationRooms, ∃ i, db.nextReservationRoomId ≤ i ∧
        rr' = mkReservationRoomRow rid rd i) ∧
      (∀ room ∈ db'.rooms, room.id = rd.roomId → room.status = "reserved")) := by
  have hcomp : (body.guest.isSome || body.reservation.isSome || body.rooms.isSome)
      = true := by
    rw [hrooms]
    simp
  obtain ⟨existing, hfound, hdb⟩ :=
    patchReservation_ok_comprehensive cp db user rid body db' h hcomp
  obtain ⟨db2, hcu, hrr2, hrm2, hnext2⟩ :=
    comprehensiveUpdate_components db existing rid body rs hrooms
  rw [hcu] at hdb
  subst hdb
  have hcur2 : db2.getReservationRooms rid = db.getReservationRooms rid := by
    unfold DB.getReservationRooms
    rw [hrr2]
  have hwfn2 : ∀ rr ∈ db2.reservationRooms, rr.id < db2.nextReservationRoomId := by
    rw [hrr2, hnext2]
    exact hwfn
  have hids2 : ∀ rd ∈ rs, jsTruthyOptNat rd.id = true →
      rd.id.getD 0 ∈ (db2.getReservationRooms rid).map (fun x => x.id) := by
    rw [hcur2]
    exact hids
  refine ⟨?_, ?_, ?_⟩
  · intro rr hrr hnotin
    have hrrdb2 : rr ∈ db2.getReservationRooms rid := by
      rw [hcur2]
      exact hrr
    exact reconcileRooms_removed db2 rid rs hwfn2 rr hrrdb2 hnotin
  · intro rd hrd htr
    exact reconcileRooms_updated db2 rid rs hwfn2 hids2 hnodupIn rd hrd htr
  · intro rd hrd hfalse
    have hres := reconcileRooms_inserted db2 rid rs hwfn2 hids2 rd hrd hfalse
    rw [hnext2] at hres
    exact hres

/-- Witness for C3: the spec's concrete scenario — existing rooms {A,B,C},
payload {B (updated), D (new)} — leaves exactly {B,D}: A's row is gone and
its room 11 is `available`, B's row holds the payload fields, D has a fresh
row and room 14 is `reserved`. -/
theorem C3_witness :
    patchBD.rooms = some [rdB, rdD] ∧
    (∀ rr ∈ dbABC.reservationRooms, rr.id < dbABC.nextReservationRoomId) ∧
    (∀ rd ∈ [rdB, rdD], jsTruthyOptNat rd.id = true →
      rd.id.getD 0 ∈ (dbABC.getReservationRooms "r3").map (fun x => x.id)) ∧
    (incomingRoomIds [rdB, rdD]).Nodup ∧
    patchReservation cpTrue dbABC adminUser "r3" patchBD = .ok dbAfterBD () ∧
    ((∀ rr ∈ dbABC.getReservationRooms "r3", rr.id ∉ incomingRoomIds [rdB, rdD] →
      (∀ rr' ∈ dbAfterBD.reservationRooms, rr'.id ≠ rr.id) ∧
      (rr.roomId ∉ ([rdB, rdD].filter (fun rd => !jsTruthyOptNat rd.id)).map
          (fun rd => rd.roomId) →
        ∀ room ∈ dbAfterBD.rooms, room.id = rr.roomId →
          room.status = "available")) ∧
    (∀ rd ∈ [rdB, rdD], jsTruthyOptNat rd.id = true →
      (∃ rr' ∈ dbAfterBD.reservationRooms, rr'.id = rd.id.getD 0) ∧
      (∀ rr' ∈ dbAfterBD.reservationRooms, rr'.id = rd.id.getD 0 →
        rr' = mkReservationRoomRow "r3" rd (rd.id.getD 0))) ∧
    (∀ rd ∈ [rdB, rdD], jsTruthyOptNat rd.id = false →
      (∃ rr' ∈ dbAfterBD.reservationRooms, ∃ i, dbABC.nextReservationRoomId ≤ i ∧
        rr' = mkReservationRoomRow "r3" rd i) ∧
      (∀ room ∈ dbAfterBD.rooms, room.id = rd.roomId →
        room.status = "reserved"))) :=
  ⟨rfl, by decide, by decide, by decide, by with_unfolding_all rfl,
    C3_room_reconciliation cpTrue dbABC adminUser "r3" patchBD dbAfterBD
      [rdB, rdD] rfl (by decide) (by decide) (by decide)
      (by with_unfolding_all rfl)⟩

end HotelPMS
